import Mathlib

/-!
Verification of the log-normalization / error-clustering pipeline
(api/log_parser.py) and the per-language source risk scanner
(api/code_analyzer.py) of the backend-systems-intelligence-studio
repository.

Python strings are modelled as lists of characters.  Each regular
expression of the source is hand-compiled to an executable recognizer
that follows the Python `re` semantics (leftmost match, alternatives in
order, greedy quantifiers with the backtracking the concrete pattern
allows).  Identity fields that the source fills with `uuid.uuid4()` are
modelled as sequence numbers, and `datetime.utcnow()` is threaded through
as an explicit `now` parameter.
-/

/-- Shorthand turning a string literal into the character-list representation
used throughout this development. -/
def cs (s : String) : List Char := s.toList

/-- Character class of the Python `str.strip` / regex whitespace set
(space, tab, newline, carriage return, vertical tab, form feed). -/
def isWSChar (c : Char) : Bool :=
  c = ' ' || c = '\t' || c = '\n' || c = '\r' || c = '\x0b' || c = '\x0c'

/-- Python regex word character (ASCII reading of the re module's NFKC-free
word class): letters, digits and underscore. -/
def isWordChar (c : Char) : Bool :=
  c.isAlphanum || c = '_'

/-- Python `str.lstrip()`. -/
def pylstrip (l : List Char) : List Char := l.dropWhile isWSChar

/-- Python `str.strip()`. -/
def pystrip (l : List Char) : List Char :=
  ((l.dropWhile isWSChar).reverse.dropWhile isWSChar).reverse

/-- Python `str.split("\n")`: the source's `raw_logs.split("\n")` and
`code.split('\n')`. -/
def splitLines : List Char → List (List Char)
  | [] => [[]]
  | '\n' :: rest => [] :: splitLines rest
  | c :: rest =>
    match splitLines rest with
    | [] => [[c]]
    | line :: more => (c :: line) :: more

/-- Python `"\n".join(...)` over character lists. -/
def joinNL : List (List Char) → List Char
  | [] => []
  | [l] => l
  | l :: rest => l ++ '\n' :: joinNL rest

/-- An anchored scanner for one piece of a regular expression: on success it
returns the consumed characters and the remaining input. -/
abbrev RxMatcher := List Char → Option (List Char × List Char)

/-- Sequencing of two anchored scanners. -/
def mseq (m1 m2 : RxMatcher) : RxMatcher := fun l =>
  match m1 l with
  | none => none
  | some (a, r) =>
    match m2 r with
    | none => none
    | some (b, r2) => some (a ++ b, r2)

/-- A single literal character. -/
def mlit (c : Char) : RxMatcher := fun l =>
  match l with
  | d :: r => if d = c then some ([d], r) else none
  | [] => none

/-- Exactly n decimal digits. -/
def mdigits : Nat → RxMatcher
  | 0 => fun l => some ([], l)
  | n + 1 => fun l =>
    match l with
    | c :: r =>
      if c.isDigit then
        match mdigits n r with
        | some (a, r2) => some (c :: a, r2)
        | none => none
      else none
    | [] => none

/-- Greedy optional piece: the regex idiom `(?:...)?` for the patterns of the
source, where failing the inner piece never blocks the rest. -/
def mopt (m : RxMatcher) : RxMatcher := fun l =>
  match m l with
  | some x => some x
  | none => some ([], l)

/-- Greedy one-or-more whitespace characters. -/
def mwsPlus : RxMatcher := fun l =>
  let w := l.takeWhile isWSChar
  if w.isEmpty then none else some (w, l.dropWhile isWSChar)

/-- Date half of both timestamp regexes of log_parser.py. -/
def mdate : RxMatcher :=
  mseq (mdigits 4) (mseq (mlit '-') (mseq (mdigits 2) (mseq (mlit '-') (mdigits 2))))

/-- Time-of-day half of both timestamp regexes. -/
def mtime : RxMatcher :=
  mseq (mdigits 2) (mseq (mlit ':') (mseq (mdigits 2) (mseq (mlit ':') (mdigits 2))))

/-- Optional fractional seconds of both timestamp regexes. -/
def mfrac : RxMatcher := mseq (mlit '.') (mdigits 3)

/-- The anchored ISO_TIMESTAMP regex of log_parser.py. -/
def isoTimestampMatch : RxMatcher :=
  mseq mdate (mseq (mlit 'T') (mseq mtime (mseq (mopt mfrac) (mopt (mlit 'Z')))))

/-- The anchored COMMON_TIMESTAMP regex of log_parser.py. -/
def commonTimestampMatch : RxMatcher :=
  mseq mdate (mseq mwsPlus (mseq mtime (mopt mfrac)))

/-- Case-insensitive anchored match of a lowercase pattern; returns the consumed
original-case characters. -/
def ciPrefixAt : List Char → List Char → Option (List Char × List Char)
  | [], r => some ([], r)
  | _ :: _, [] => none
  | p :: ps, c :: rest =>
    if c.toLower = p then
      match ciPrefixAt ps rest with
      | some (a, r) => some (c :: a, r)
      | none => none
    else none

/-- Word boundary on the right of a match: end of input or a non-word
character next. -/
def boundaryAfter (l : List Char) : Bool :=
  match l with
  | [] => true
  | c :: _ => !isWordChar c

/-- One alternative of the LEVEL_PATTERN regex, checked case-insensitively
with the trailing word boundary. -/
def tryLevelWord (w : String) (l : List Char) : Option (List Char) :=
  match ciPrefixAt (cs w) l with
  | some (m, r) => if boundaryAfter r then some m else none
  | none => none

/-- The alternation of LEVEL_PATTERN at one position, the alternatives in the
order of the source pattern (WARNING is the greedy reading of WARN(?:ING)?). -/
def levelAlternativesAt (l : List Char) : Option (List Char) :=
  (tryLevelWord "debug" l).orElse fun _ =>
  (tryLevelWord "info" l).orElse fun _ =>
  (tryLevelWord "warning" l).orElse fun _ =>
  (tryLevelWord "warn" l).orElse fun _ =>
  (tryLevelWord "error" l).orElse fun _ =>
  (tryLevelWord "fatal" l).orElse fun _ =>
  tryLevelWord "critical" l

/-- Scan of LEVEL_PATTERN: leftmost position with a word boundary on the left
where one alternative matches; returns the matched text (group 0). -/
def levelSearchGo : Bool → List Char → Option (List Char)
  | _, [] => none
  | prevWord, c :: rest =>
    (if !prevWord then levelAlternativesAt (c :: rest) else none).orElse fun _ =>
      levelSearchGo (isWordChar c) rest

/-- `LEVEL_PATTERN.search`. -/
def levelSearch (l : List Char) : Option (List Char) := levelSearchGo false l

/-- Python `working_line.replace(needle, "", 1)`: drop the first occurrence of
a (nonempty) needle. -/
def removeFirstOcc (needle : List Char) : List Char → List Char
  | [] => []
  | c :: rest =>
    if needle.isPrefixOf (c :: rest) then (c :: rest).drop needle.length
    else c :: removeFirstOcc needle rest

/-- `SOURCE_PATTERN.search`: the first bracketed tag; returns (group 0,
group 1). -/
def sourceSearch : List Char → Option (List Char × List Char)
  | [] => none
  | c :: rest =>
    if c = '[' then
      let inner := rest.takeWhile (fun d => d ≠ ']')
      let after := rest.dropWhile (fun d => d ≠ ']')
      if inner.isEmpty then sourceSearch rest
      else
        match after with
        | ']' :: _ => some ('[' :: (inner ++ [']']), inner)
        | _ => sourceSearch rest
    else sourceSearch rest

/-- `STACK_TRACE.match`: leading whitespace, the word at, more whitespace. -/
def stackTraceMatch (l : List Char) : Bool :=
  let w := l.takeWhile isWSChar
  let r := l.dropWhile isWSChar
  !w.isEmpty &&
    (match r with
     | 'a' :: 't' :: r2 =>
       (match r2 with
        | d :: _ => isWSChar d
        | [] => false)
     | _ => false)

/-- `CAUSED_BY.match`: optional whitespace then the case-insensitive text
Caused by with a colon. -/
def causedByMatch (l : List Char) : Bool :=
  (ciPrefixAt (cs "caused by:") (l.dropWhile isWSChar)).isSome

/-- `normalize_level` of log_parser.py. -/
def normalize_level (level : List Char) : List Char :=
  let normalized := level.map Char.toUpper
  if normalized ∈ [cs "DEBUG", cs "INFO", cs "ERROR", cs "FATAL"] then normalized
  else if normalized ∈ [cs "WARN", cs "WARNING"] then cs "WARN"
  else if normalized = cs "CRITICAL" then cs "FATAL"
  else cs "INFO"

/-- Result record of `parse_line` of log_parser.py. -/
structure ParsedLine where
  message : List Char
  isTrace : Bool
  timestamp : Option (List Char)
  level : Option (List Char)
  source : Option (List Char)
  deriving Repr, DecidableEq

/-- `parse_line` of log_parser.py: stack-trace detection, then timestamp,
level and bracketed source extraction with the residue as message. -/
def parse_line (line : List Char) : ParsedLine :=
  if stackTraceMatch line || causedByMatch line then
    { message := pystrip line, isTrace := true,
      timestamp := none, level := none, source := none }
  else
    let (ts, w1) :=
      match isoTimestampMatch line with
      | some (m, rest) => (some m, pystrip rest)
      | none =>
        match commonTimestampMatch line with
        | some (m, rest) =>
          (some ((m.map fun c => if c = ' ' then 'T' else c) ++ [ 'Z' ]), pystrip rest)
        | none => (none, line)
    let (lv, w2) :=
      match levelSearch w1 with
      | some g0 => (some (normalize_level g0), pystrip (removeFirstOcc g0 w1))
      | none => (none, w1)
    let (src, w3) :=
      match sourceSearch w2 with
      | some (g0, g1) => (some g1, pystrip (removeFirstOcc g0 w2))
      | none => (none, w2)
    { message := pystrip w3, isTrace := false,
      timestamp := ts, level := lv, source := src }

/-- `LogEntry` of api/schemas.py as the log pipeline populates it; uuid4
identities are modelled as sequence numbers. -/
structure LogEntry where
  id : Nat
  timestamp : List Char
  level : List Char
  message : List Char
  source : Option (List Char)
  stackTrace : Option (List Char)
  deriving Repr, DecidableEq

/-- In-progress entry of the assembler in `parse_logs` (the mutable
current_entry dict). -/
structure CurEntry where
  timestamp : Option (List Char)
  level : Option (List Char)
  source : Option (List Char)
  message : List Char
  deriving Repr, DecidableEq

/-- Assembler state of `parse_logs`: finished entries, the entry in progress,
its stack-trace buffer and the next fresh identity. -/
structure AsmState where
  entries : List LogEntry
  current : Option CurEntry
  trace : List (List Char)
  nextId : Nat
  deriving Repr, DecidableEq

/-- `finalize_entry` of `parse_logs`: emit the entry in progress when its
message is nonempty, defaulting the timestamp to `now` and the level to INFO
(a falsy — absent or empty — stored value falls back, as Python `or` does). -/
def finalize_entry (now : List Char) (st : AsmState) : AsmState :=
  match st.current with
  | some e =>
    if e.message ≠ [] then
      { entries := st.entries ++
          [{ id := st.nextId
             timestamp := match e.timestamp with
               | some t => if t = [] then now else t
               | none => now
             level := match e.level with
               | some lv => if lv = [] then cs "INFO" else lv
               | none => cs "INFO"
             message := e.message
             source := e.source
             stackTrace := if st.trace = [] then none else some (joinNL st.trace) }],
        current := none, trace := [], nextId := st.nextId + 1 }
    else { st with current := none, trace := [] }
  | none => { st with current := none, trace := [] }

/-- Loop body of `parse_logs` for one raw line. -/
def parseLogsStep (now : List Char) (st : AsmState) (line : List Char) : AsmState :=
  if pystrip line = [] then st
  else
    let parsed := parse_line line
    if parsed.isTrace then
      { st with trace := st.trace ++ [pystrip line] }
    else if parsed.timestamp.isSome || parsed.level.isSome then
      let st' := finalize_entry now st
      { st' with current := some { timestamp := parsed.timestamp, level := parsed.level,
                                   source := parsed.source, message := parsed.message } }
    else
      match st.current with
      | some e =>
        if (cs "  ").isPrefixOf line || ['\t'].isPrefixOf line then
          { st with trace := st.trace ++ [pystrip line] }
        else
          { st with current := some { e with message := e.message ++ ' ' :: parsed.message } }
      | none =>
        { st with current := some { timestamp := some now, level := some (cs "INFO"),
                                    source := none, message := parsed.message } }

/-- `parse_logs` of log_parser.py over an explicit current time. -/
def parse_logs (now : List Char) (raw_logs : List Char) : List LogEntry :=
  (finalize_entry now
    ((splitLines raw_logs).foldl (parseLogsStep now)
      { entries := [], current := none, trace := [], nextId := 0 })).entries

/-- Scanner for the hash-digits replacement of `create_error_pattern`: when
the Boolean is set the scanner is inside the greedy digit run of a replaced
match and skips its digits.  A hash sign directly followed by at least one
digit starts a match, emitting the text #ID. -/
def subHashGo : Bool → List Char → List Char
  | _, [] => []
  | inRun, c :: rest =>
    if inRun && c.isDigit then subHashGo true rest
    else if c = '#' && (match rest with | d :: _ => d.isDigit | [] => false) then
      '#' :: 'I' :: 'D' :: subHashGo true rest
    else c :: subHashGo false rest

/-- Replacement of the regex hash-digits pattern in `create_error_pattern`:
every hash sign directly followed by digits becomes the text #ID. -/
def subHashId (l : List Char) : List Char := subHashGo false l

/-- Fueled replacement of the word-bounded four-or-more-digit runs in
`create_error_pattern` by the text NUM; the Boolean argument records whether
the previous character was a word character (no boundary), and the fuel is
the input length, enough because every step consumes at least one
character. -/
def subNumGo : Nat → Bool → List Char → List Char
  | 0, _, l => l
  | _ + 1, _, [] => []
  | fuel + 1, prevWord, c :: rest =>
    if !prevWord && c.isDigit then
      let run := c :: rest.takeWhile Char.isDigit
      let after := rest.dropWhile Char.isDigit
      if 4 ≤ run.length && (match after with | [] => true | a :: _ => !isWordChar a) then
        cs "NUM" ++ subNumGo fuel true after
      else
        run ++ subNumGo fuel true after
    else
      c :: subNumGo fuel (isWordChar c) rest

/-- Entry point for the NUM replacement (start of string is a boundary). -/
def subNum (l : List Char) : List Char := subNumGo l.length false l

/-- Hexadecimal character of the UUID regex (case-insensitive a-f0-9). -/
def isHexChar (c : Char) : Bool :=
  c.isDigit || ('a' ≤ c && c ≤ 'f') || ('A' ≤ c && c ≤ 'F')

/-- Consume exactly n characters satisfying p. -/
def mexactRun (p : Char → Bool) : Nat → List Char → Option (List Char)
  | 0, l => some l
  | n + 1, c :: r => if p c then mexactRun p n r else none
  | _ + 1, [] => none

/-- Consume one expected character. -/
def mchar (c : Char) : List Char → Option (List Char)
  | d :: r => if d = c then some r else none
  | [] => none

/-- Anchored match of the UUID regex shape 8-4-4-4-12; returns the rest. -/
def matchUUIDAt (l : List Char) : Option (List Char) := do
  let r1 ← mexactRun isHexChar 8 l
  let r2 ← mchar '-' r1
  let r3 ← mexactRun isHexChar 4 r2
  let r4 ← mchar '-' r3
  let r5 ← mexactRun isHexChar 4 r4
  let r6 ← mchar '-' r5
  let r7 ← mexactRun isHexChar 4 r6
  let r8 ← mchar '-' r7
  mexactRun isHexChar 12 r8

/-- Fueled scan for the UUID replacement; the fuel is the input length,
enough because every step consumes at least one character. -/
def subUUIDGo : Nat → List Char → List Char
  | 0, l => l
  | _ + 1, [] => []
  | fuel + 1, c :: rest =>
    match matchUUIDAt (c :: rest) with
    | some r => cs "UUID" ++ subUUIDGo fuel r
    | none => c :: subUUIDGo fuel rest

/-- Replacement of UUID-shaped substrings by the text UUID. -/
def subUUID (l : List Char) : List Char := subUUIDGo l.length l

/-- Time-of-day part of the timestamp replacement regex. -/
def matchTimePart (l : List Char) : Option (List Char) := do
  let r1 ← mexactRun Char.isDigit 2 l
  let r2 ← mchar ':' r1
  let r3 ← mexactRun Char.isDigit 2 r2
  let r4 ← mchar ':' r3
  mexactRun Char.isDigit 2 r4

/-- Anchored match of the timestamp replacement regex, with the optional
letter T tried greedily first as the re module does. -/
def matchTsAt (l : List Char) : Option (List Char) := do
  let r1 ← mexactRun Char.isDigit 4 l
  let r2 ← mchar '-' r1
  let r3 ← mexactRun Char.isDigit 2 r2
  let r4 ← mchar '-' r3
  let r5 ← mexactRun Char.isDigit 2 r4
  match r5 with
  | 'T' :: r6 =>
    (match matchTimePart r6 with
     | some r7 => some r7
     | none => matchTimePart r5)
  | _ => matchTimePart r5

/-- Fueled scan for the TIMESTAMP replacement. -/
def subTsGo : Nat → List Char → List Char
  | 0, l => l
  | _ + 1, [] => []
  | fuel + 1, c :: rest =>
    match matchTsAt (c :: rest) with
    | some r => cs "TIMESTAMP" ++ subTsGo fuel r
    | none => c :: subTsGo fuel rest

/-- Replacement of timestamp-shaped substrings by the text TIMESTAMP. -/
def subTs (l : List Char) : List Char := subTsGo l.length l

/-- One dotted group of the IP replacement regex: one to three greedy digits
then a literal dot (a longer digit run leaves no way to reach the dot). -/
def ipGroup (l : List Char) : Option (List Char) :=
  let run := l.takeWhile Char.isDigit
  if run.length = 0 || 3 < run.length then none
  else mchar '.' (l.dropWhile Char.isDigit)

/-- Anchored match of the dotted-quad IP replacement regex. -/
def matchIPAt (l : List Char) : Option (List Char) := do
  let r1 ← ipGroup l
  let r2 ← ipGroup r1
  let r3 ← ipGroup r2
  let run := r3.takeWhile Char.isDigit
  if run.length = 0 then none
  else some (r3.drop (min 3 run.length))

/-- Fueled scan for the IP replacement. -/
def subIPGo : Nat → List Char → List Char
  | 0, l => l
  | _ + 1, [] => []
  | fuel + 1, c :: rest =>
    match matchIPAt (c :: rest) with
    | some r => cs "IP" ++ subIPGo fuel r
    | none => c :: subIPGo fuel rest

/-- Replacement of dotted-quad substrings by the text IP. -/
def subIP (l : List Char) : List Char := subIPGo l.length l

/-- `create_error_pattern` of log_parser.py: the five masking substitutions in
source order, the source tag (or unknown, also for a falsy empty tag) and the
first hundred characters of the masked message. -/
def create_error_pattern (message : List Char) (source : Option (List Char)) : List Char :=
  let p1 := subHashId message
  let p2 := subNum p1
  let p3 := subUUID p2
  let p4 := subTs p3
  let p5 := subIP p4
  (match source with
   | some s => if s = [] then cs "unknown" else s
   | none => cs "unknown") ++ ':' :: p5.take 100

/-- Level filter of `group_errors`. -/
def isErrorLevel (l : LogEntry) : Bool :=
  l.level == cs "ERROR" || l.level == cs "FATAL"

/-- Append a log to the bucket of its pattern (the first, and by
construction only, entry with that key: Python dict keys are unique). -/
def updateBucket (pat : List Char) (log : LogEntry) :
    List (List Char × List LogEntry) → List (List Char × List LogEntry)
  | [] => []
  | g :: rest =>
    if g.1 == pat then (g.1, g.2 ++ [log]) :: rest
    else g :: updateBucket pat log rest

/-- One step of building the insertion-ordered pattern dictionary of
`group_errors` (Python dicts keep insertion order). -/
def insertGroup (acc : List (List Char × List LogEntry)) (log : LogEntry) :
    List (List Char × List LogEntry) :=
  let pat := create_error_pattern log.message log.source
  if acc.any (fun g => g.1 == pat) then updateBucket pat log acc
  else acc ++ [(pat, [log])]

/-- `ErrorGroup` of api/schemas.py as `group_errors` populates it; the uuid4
identity is modelled as the creation index. -/
structure ErrorGroup where
  id : Nat
  label : List Char
  count : Nat
  severity : String
  firstOccurrence : List Char
  lastOccurrence : List Char
  sampleMessage : List Char
  relatedLogIds : List Nat
  deriving Repr, DecidableEq

instance : Inhabited LogEntry :=
  ⟨{ id := 0, timestamp := [], level := [], message := [], source := none, stackTrace := none }⟩

/-- Lexicographic string comparison, the order Python uses when sorting the
timestamp strings. -/
def lexLe : List Char → List Char → Bool
  | [], _ => true
  | _ :: _, [] => false
  | a :: xs, b :: ys => if a = b then lexLe xs ys else decide (a < b)

/-- Rank of the severity sort of `group_errors` (the severity_order dict). -/
def severityRank (s : String) : Nat :=
  if s = "critical" then 0 else if s = "high" then 1 else if s = "medium" then 2
  else if s = "low" then 3 else 4

/-- Stable insertion of an element in front of the first list member it
compares at-or-before. -/
def stableInsert (le : α → α → Bool) (a : α) : List α → List α
  | [] => [a]
  | b :: l => if le a b then a :: b :: l else b :: stableInsert le a l

/-- Stable sort modelling Python's sorted and list.sort: a stable sort for a
total preorder is unique, so this insertion sort returns exactly what the
source's Timsort returns. -/
def pysort (le : α → α → Bool) : List α → List α
  | [] => []
  | a :: l => stableInsert le a (pysort le l)

/-- Construction of one `ErrorGroup` from the i-th pattern bucket. -/
def mkErrorGroup (i : Nat) (g : List Char × List LogEntry) : ErrorGroup :=
  let sorted := pysort (fun a b => lexLe a.timestamp b.timestamp) g.2
  let count := g.2.length
  let severity :=
    if g.2.any (fun l => l.level == cs "FATAL") then "critical"
    else if 5 ≤ count then "high"
    else if 2 ≤ count then "medium"
    else "low"
  { id := i
    label := cs "Error Group " ++ [Char.ofNat (65 + i)]
    count := count
    severity := severity
    firstOccurrence := (sorted.headD default).timestamp
    lastOccurrence := (sorted.getLastD default).timestamp
    sampleMessage := (sorted.headD default).message
    relatedLogIds := g.2.map (·.id) }

/-- The (severity rank, count descending) key order of the final sort. -/
def groupOrder (a b : ErrorGroup) : Bool :=
  decide (severityRank a.severity < severityRank b.severity) ||
  (severityRank a.severity == severityRank b.severity && decide (b.count ≤ a.count))

/-- `group_errors` of log_parser.py: filter the error entries, bucket them by
fingerprint in insertion order, build the groups and sort stably by
(severity rank, count descending) as Python's sort does. -/
def group_errors (logs : List LogEntry) : List ErrorGroup :=
  let error_logs := logs.filter isErrorLevel
  let groups := error_logs.foldl insertGroup []
  let result := groups.enum.map (fun p => mkErrorGroup p.1 p.2)
  pysort groupOrder result

/-- Drop a literal string prefix, or fail. -/
def stripLit (w : String) (l : List Char) : Option (List Char) :=
  if (cs w).isPrefixOf l then some (l.drop (cs w).length) else none

/-- Greedy whitespace star of a regex. -/
def sws (l : List Char) : List Char := l.dropWhile isWSChar

/-- Greedy whitespace plus of a regex. -/
def swsPlus (l : List Char) : Option (List Char) :=
  if (l.takeWhile isWSChar).isEmpty then none else some (l.dropWhile isWSChar)

/-- Greedy word-character plus of a regex. -/
def wordRunPlus (l : List Char) : Option (List Char) :=
  if (l.takeWhile isWordChar).isEmpty then none else some (l.dropWhile isWordChar)

/-- Substring containment, Python's in operator on strings. -/
def containsSub (needle : List Char) : List Char → Bool
  | [] => needle.isEmpty
  | l@(_ :: rest) => needle.isPrefixOf l || containsSub needle rest

/-- Unanchored search of an anchored position check. -/
def searchAt (p : List Char → Bool) : List Char → Bool
  | [] => false
  | l@(_ :: rest) => p l || searchAt p rest

/-- Unanchored search carrying the previous-character word-class, for
patterns that open with a word boundary. -/
def searchGo (p : Bool → List Char → Bool) : Bool → List Char → Bool
  | _, [] => false
  | prevWord, c :: rest => p prevWord (c :: rest) || searchGo p (isWordChar c) rest

/-- Search from the start of the string (the position before the first
character counts as non-word). -/
def searchB (p : Bool → List Char → Bool) (l : List Char) : Bool := searchGo p false l

/-- Anchored Python-marker alternation of `detect_language`. -/
def pythonStartMatch (trimmed : List Char) : Bool :=
  (cs "def ").isPrefixOf trimmed || (cs "class ").isPrefixOf trimmed ||
  (cs "import ").isPrefixOf trimmed || (cs "from ").isPrefixOf trimmed ||
  (cs "async def ").isPrefixOf trimmed || (cs "if __name__").isPrefixOf trimmed ||
  (match trimmed with
   | '@' :: c :: _ => isWordChar c
   | _ => false)

/-- Search for a colon followed by a newline inside its whitespace run and an
indented pass/return/raise/print keyword (the second Python cue of
`detect_language`). -/
def pyColonBlockSearch : List Char → Bool
  | [] => false
  | ':' :: rest =>
    (let w := rest.takeWhile isWSChar
     let r := rest.dropWhile isWSChar
     (w.dropLast.contains '\n') &&
       ((cs "pass").isPrefixOf r || (cs "return").isPrefixOf r ||
        (cs "raise").isPrefixOf r || (cs "print").isPrefixOf r))
    || pyColonBlockSearch rest
  | _ :: rest => pyColonBlockSearch rest

/-- Search for a self attribute access (third Python cue). -/
def selfAttrSearch : List Char → Bool
  | [] => false
  | l@(_ :: rest) =>
    ((cs "self.").isPrefixOf l &&
      (match l.drop 5 with
       | c :: _ => isWordChar c
       | [] => false))
    || selfAttrSearch rest

/-- Position check of the word-bounded fun-with-name Kotlin cue. -/
def funWordAt (prevWord : Bool) (l : List Char) : Bool :=
  !prevWord &&
  (do
    let r1 ← stripLit "fun" l
    let r2 ← swsPlus r1
    let _ ← wordRunPlus r2
    pure ()).isSome

/-- Position check of the word-bounded suspend-fun cue. -/
def suspendFunAt (prevWord : Bool) (l : List Char) : Bool :=
  !prevWord &&
  (do
    let r1 ← stripLit "suspend" l
    let r2 ← swsPlus r1
    let _ ← stripLit "fun" r2
    pure ()).isSome

/-- Position check of the word-bounded runBlocking-with-brace cue. -/
def runBlockingAt (prevWord : Bool) (l : List Char) : Bool :=
  !prevWord &&
  (do
    let r1 ← stripLit "runBlocking" l
    let _ ← mchar '{' (sws r1)
    pure ()).isSome

/-- Position check of the word-bounded val-binding cue. -/
def kotlinValAt (prevWord : Bool) (l : List Char) : Bool :=
  !prevWord &&
  (do
    let r1 ← stripLit "val" l
    let r2 ← swsPlus r1
    let r3 ← wordRunPlus r2
    match sws r3 with
    | ':' :: _ => some ()
    | '=' :: _ => some ()
    | _ => none).isSome

/-- Position check of the word-bounded fun-then-whitespace cue. -/
def funWsAt (prevWord : Bool) (l : List Char) : Bool :=
  !prevWord &&
  (do
    let r1 ← stripLit "fun" l
    match r1 with
    | c :: _ => if isWSChar c then some () else none
    | [] => none).isSome

/-- Position check of the public-modifier Java cue. -/
def javaPublicAt (prevWord : Bool) (l : List Char) : Bool :=
  !prevWord &&
  (do
    let r1 ← stripLit "public" l
    let r2 ← swsPlus r1
    if (cs "class").isPrefixOf r2 || (cs "interface").isPrefixOf r2 ||
       (cs "enum").isPrefixOf r2 || (cs "static").isPrefixOf r2 ||
       (cs "void").isPrefixOf r2 || (cs "String").isPrefixOf r2 then some () else none).isSome

/-- Position check of the private-modifier Java cue. -/
def javaPrivateAt (prevWord : Bool) (l : List Char) : Bool :=
  !prevWord &&
  (do
    let r1 ← stripLit "private" l
    let r2 ← swsPlus r1
    if (cs "static").isPrefixOf r2 || (cs "final").isPrefixOf r2 ||
       (cs "void").isPrefixOf r2 || (cs "String").isPrefixOf r2 ||
       (cs "int").isPrefixOf r2 || (cs "boolean").isPrefixOf r2 then some () else none).isSome

/-- Position check of the implements/extends Java cue. -/
def implementsExtendsAt (prevWord : Bool) (l : List Char) : Bool :=
  !prevWord &&
  (do
    let r1 ← (stripLit "implements" l).orElse fun _ => stripLit "extends" l
    let r2 ← swsPlus r1
    let _ ← wordRunPlus r2
    pure ()).isSome

/-- Position check of the Java annotation cue. -/
def javaAnnoAt (l : List Char) : Bool :=
  match l with
  | '@' :: r =>
    (cs "Override").isPrefixOf r || (cs "Service").isPrefixOf r ||
    (cs "Controller").isPrefixOf r || (cs "Autowired").isPrefixOf r
  | _ => false

/-- One word alternative of the JavaScript keyword cue with its right
boundary. -/
def jsWordAlt (w : String) (l : List Char) : Bool :=
  (cs w).isPrefixOf l && boundaryAfter (l.drop (cs w).length)

/-- Position check of the word-bounded JavaScript keyword alternation
(the arrow alternative needs word characters on both of its sides, as the
regex boundaries around a non-word token demand). -/
def jsKeywordAt (prevWord : Bool) (l : List Char) : Bool :=
  (match l with
   | c :: _ => prevWord != isWordChar c
   | [] => false) &&
  (jsWordAlt "function" l || jsWordAlt "const" l || jsWordAlt "let" l ||
   jsWordAlt "var" l ||
   (match l with
    | '=' :: '>' :: c :: _ => isWordChar c
    | _ => false) ||
   jsWordAlt "async" l || jsWordAlt "await" l || jsWordAlt "require" l ||
   jsWordAlt "import" l || jsWordAlt "export" l)

/-- Position check of the console-call cue. -/
def consoleAt (prevWord : Bool) (l : List Char) : Bool :=
  !prevWord &&
  (do
    let r1 ← stripLit "console." l
    match r1 with
    | c :: _ => if isWordChar c then some () else none
    | [] => none).isSome

/-- `detect_language` of code_analyzer.py: the fixed-priority cascade of
lexical fingerprints. -/
def detect_language (code : List Char) : String :=
  if pythonStartMatch (pystrip code) || pyColonBlockSearch code || selfAttrSearch code then
    "python"
  else if searchB funWordAt code || searchB suspendFunAt code ||
          searchB runBlockingAt code ||
          (searchB kotlinValAt code && searchB funWsAt code) then
    "kotlin"
  else if searchB javaPublicAt code || searchB javaPrivateAt code ||
          searchB implementsExtendsAt code || searchAt javaAnnoAt code then
    "java"
  else if searchB jsKeywordAt code || searchB consoleAt code then
    "javascript"
  else "unknown"

/-- `RiskFinding` of code_analyzer.py. -/
structure RiskFinding where
  rule_id : String
  severity : String
  category : String
  message : String
  line : Nat
  why_it_matters : String
  suggested_fix : String
  deriving Repr, DecidableEq

/-- `AnalysisResult` of code_analyzer.py. -/
structure AnalysisResult where
  language : String
  parser_used : String
  lines_scanned : Nat
  findings : List RiskFinding
  limitations : List String
  deriving Repr, DecidableEq

/-- Fueled removal of every occurrence of a (nonempty) needle: Python
`str.replace(needle, "")`. -/
def removeAllOccGo (needle : List Char) : Nat → List Char → List Char
  | 0, l => l
  | _ + 1, [] => []
  | fuel + 1, c :: rest =>
    if needle.isPrefixOf (c :: rest) ∧ needle ≠ [] then
      removeAllOccGo needle fuel ((c :: rest).drop needle.length)
    else c :: removeAllOccGo needle fuel rest

/-- Python `str.replace(needle, "")` for a nonempty needle. -/
def removeAllOcc (needle l : List Char) : List Char := removeAllOccGo needle l.length l

/-- The blocking synchronous API names of `analyze_javascript`. -/
def jsBlockingMethods : List String :=
  ["readFileSync", "writeFileSync", "execSync", "spawnSync", "existsSync",
   "statSync", "readdirSync"]

/-- Position check of the empty-catch regex of `analyze_javascript`. -/
def jsEmptyCatchAt (l : List Char) : Bool :=
  (do
    let r1 ← stripLit "catch" l
    let r2 ← mchar '(' (sws r1)
    let r3 ← mchar ')' (r2.dropWhile (fun c => c ≠ ')'))
    let r4 ← mchar '{' (sws r3)
    let _ ← mchar '}' (sws r4)
    pure ()).isSome

/-- The blocking-call finding of `analyze_javascript`. -/
def jsBlockingFinding (m : String) (n : Nat) : RiskFinding :=
  { rule_id := "JS_BLOCKING_CALL", severity := "HIGH", category := "blocking",
    message := "Blocking call '" ++ m ++ "' detected", line := n,
    why_it_matters := "Blocking calls freeze the event loop, causing latency spikes and preventing concurrent request handling.",
    suggested_fix := "Use async version: " ++
      String.mk (removeAllOcc (cs "Sync") (cs m)) ++ " with await or callbacks." }

/-- The empty-catch finding of `analyze_javascript`. -/
def jsEmptyCatchFinding (n : Nat) : RiskFinding :=
  { rule_id := "JS_EMPTY_CATCH", severity := "HIGH", category := "error-handling",
    message := "Empty catch block swallows exception", line := n,
    why_it_matters := "Silent exception handling hides bugs and makes debugging extremely difficult.",
    suggested_fix := "Log the exception, rethrow, or handle appropriately. Never silently ignore." }

/-- `analyze_javascript` of code_analyzer.py: stateless per-line checks. -/
def analyze_javascript (code : List Char) : List RiskFinding :=
  (splitLines code).enum.flatMap fun p =>
    (jsBlockingMethods.filterMap fun m =>
      if containsSub (cs m) p.2 then some (jsBlockingFinding m (p.1 + 1)) else none) ++
    (if searchAt jsEmptyCatchAt p.2 then [jsEmptyCatchFinding (p.1 + 1)] else [])

/-- Scanner state of `analyze_java_kotlin`. -/
structure JKState where
  inCatch : Bool
  catchStart : Nat
  catchContent : List Char
  depth : Int
  inSuspend : Bool
  inHandler : Bool
  deriving Repr, DecidableEq

/-- Position check of one handler-annotation alternation. -/
def mappingAnnoAt (l : List Char) : Bool :=
  match l with
  | '@' :: r =>
    (cs "GetMapping").isPrefixOf r || (cs "PostMapping").isPrefixOf r ||
    (cs "PutMapping").isPrefixOf r || (cs "DeleteMapping").isPrefixOf r ||
    (cs "RequestMapping").isPrefixOf r || (cs "Controller").isPrefixOf r
  | _ => false

/-- Position check of the JAX-RS style annotation alternation. -/
def restAnnoAt (l : List Char) : Bool :=
  match l with
  | '@' :: r =>
    (cs "GET").isPrefixOf r || (cs "POST").isPrefixOf r || (cs "PUT").isPrefixOf r ||
    (cs "DELETE").isPrefixOf r || (cs "Path").isPrefixOf r
  | _ => false

/-- Position check of the servlet handler signature. -/
def servletSigAt (l : List Char) : Bool :=
  (do
    let r1 ← stripLit "public" l
    let r2 ← swsPlus r1
    let r3 ← wordRunPlus r2
    let r4 ← swsPlus r3
    let r5 ← ((stripLit "doGet" r4).orElse fun _ =>
              (stripLit "doPost" r4).orElse fun _ => stripLit "service" r4)
    let _ ← mchar '(' (sws r5)
    pure ()).isSome

/-- Position check of the Kotlin route handler signature: a suspend fun with a
name whose tail (with any following text) contains the word Route; the
dot-star of the regex lets the required word start anywhere at or after the
second character of the name. -/
def suspendRouteAt (l : List Char) : Bool :=
  (do
    let r1 ← stripLit "suspend" l
    let r2 ← swsPlus r1
    let r3 ← stripLit "fun" r2
    let r4 ← swsPlus r3
    match r4 with
    | c :: r5 => if isWordChar c && containsSub (cs "Route") r5 then some () else none
    | [] => none).isSome

/-- The request_handler_patterns test of `analyze_java_kotlin`. -/
def handlerPatternSearch (line : List Char) : Bool :=
  searchAt mappingAnnoAt line || searchAt restAnnoAt line ||
  searchAt servletSigAt line || searchAt suspendRouteAt line

/-- Position check of the suspend-fun search of `analyze_java_kotlin`. -/
def suspendFunPlainAt (l : List Char) : Bool :=
  (do
    let r1 ← stripLit "suspend" l
    let r2 ← swsPlus r1
    let _ ← stripLit "fun" r2
    pure ()).isSome

/-- Position check of the blocking execute call. -/
def execCallAt (l : List Char) : Bool :=
  (do
    let r1 ← stripLit ".execute" l
    let _ ← mchar '(' (sws r1)
    pure ()).isSome

/-- Position check of the Thread.sleep call. -/
def threadSleepAt (l : List Char) : Bool :=
  (do
    let r1 ← stripLit "Thread.sleep" l
    let _ ← mchar '(' (sws r1)
    pure ()).isSome

/-- Position check of a runBlocking block. -/
def runBlockingPlainAt (l : List Char) : Bool :=
  (do
    let r1 ← stripLit "runBlocking" l
    let _ ← mchar '{' (sws r1)
    pure ()).isSome

/-- Position check of a catch clause opener. -/
def catchOpenAt (l : List Char) : Bool :=
  (do
    let r1 ← stripLit "catch" l
    let _ ← mchar '(' (sws r1)
    pure ()).isSome

/-- Position check of the Java response assignment. -/
def responseAssignAt (l : List Char) : Bool :=
  (do
    let r1 ← stripLit "Response" l
    let r2 ← swsPlus r1
    let r3 ← wordRunPlus r2
    let _ ← mchar '=' (sws r3)
    pure ()).isSome

/-- Position check of the try-with-resources opener. -/
def tryParenAt (l : List Char) : Bool :=
  (do
    let r1 ← stripLit "try" l
    let _ ← mchar '(' (sws r1)
    pure ()).isSome

/-- Position check of an unguarded response body access, for the given final
accessor (string or bytes). -/
def bodyAccessAt (accessor : String) (l : List Char) : Bool :=
  (do
    let r1 ← stripLit ".body" l
    let r2 ← mchar '(' (sws r1)
    let r3 ← mchar ')' (sws r2)
    let r4 ← stripLit ("." ++ accessor) (sws r3)
    let _ ← mchar '(' (sws r4)
    pure ()).isSome

/-- Fueled line-comment removal of the catch-body scrub (the multiline
slash-slash-to-end-of-line substitution); the fuel is the input length,
enough because every step consumes at least one character. -/
def stripLineCommentsGo : Nat → List Char → List Char
  | 0, l => l
  | _ + 1, [] => []
  | fuel + 1, '/' :: '/' :: rest => stripLineCommentsGo fuel (rest.dropWhile (fun c => c ≠ '\n'))
  | fuel + 1, c :: rest => c :: stripLineCommentsGo fuel rest

/-- Line-comment removal of the catch-body scrub. -/
def stripLineComments (l : List Char) : List Char := stripLineCommentsGo l.length l

/-- Rest of the input after the first block-comment closer. -/
def dropThroughClose : List Char → Option (List Char)
  | [] => none
  | '*' :: '/' :: rest => some rest
  | _ :: rest => dropThroughClose rest

/-- Fueled removal of the non-greedy block comments of the catch-body scrub. -/
def stripBlockCommentsGo : Nat → List Char → List Char
  | 0, l => l
  | _ + 1, [] => []
  | fuel + 1, '/' :: '*' :: rest =>
    (match dropThroughClose rest with
     | some r => stripBlockCommentsGo fuel r
     | none => '/' :: stripBlockCommentsGo fuel ('*' :: rest))
  | fuel + 1, c :: rest => c :: stripBlockCommentsGo fuel rest

/-- Removal of block comments. -/
def stripBlockComments (l : List Char) : List Char := stripBlockCommentsGo l.length l

/-- Python `str.split(";")`. -/
def splitSemicolons : List Char → List (List Char)
  | [] => [[]]
  | ';' :: rest => [] :: splitSemicolons rest
  | c :: rest =>
    match splitSemicolons rest with
    | [] => [[c]]
    | s :: more => (c :: s) :: more

/-- The statement list the empty-catch check extracts from an accumulated
catch-block body. -/
def catchStatements (content : List Char) : List (List Char) :=
  let scrubbed := stripBlockComments (stripLineComments content)
  ((splitSemicolons scrubbed).map pystrip).filter fun s =>
    !s.isEmpty && !(cs "catch").isPrefixOf s && s ≠ cs "\x7b" && s ≠ cs "\x7d"

/-- The vacuous-single-statement regex of the empty-catch check. -/
def vacuousStmt (s : List Char) : Bool :=
  s == cs "catch" ||
  (match s with
   | '}' :: rest => (rest.dropWhile isWSChar) == cs "catch"
   | _ => false) ||
  s == cs "\x7b" || s == cs "\x7d"

/-- The empty-catch condition on the extracted statements. -/
def catchBodyVacuous (content : List Char) : Bool :=
  match catchStatements content with
  | [] => true
  | [s] => vacuousStmt s
  | _ => false

/-- Number of occurrences of a character. -/
def countChar (c : Char) (l : List Char) : Nat :=
  (l.filter (fun d => d = c)).length

/-- Upper-cased language tag used in rule identifiers. -/
def langUpper (lang : String) : String := lang.map Char.toUpper

/-- The blocking-HTTP finding of `analyze_java_kotlin`. -/
def jkBlockingHTTPFinding (lang : String) (suspend : Bool) (n : Nat) : RiskFinding :=
  { rule_id := langUpper lang ++ "_BLOCKING_IO", severity := "HIGH", category := "blocking",
    message := "Blocking HTTP call in " ++
      (if suspend then "suspend function" else "request handler"),
    line := n,
    why_it_matters := "Blocking calls in request handlers cause thread starvation and reduce throughput.",
    suggested_fix :=
      if lang = "kotlin" then
        "Use async HTTP client (OkHttp enqueue, WebClient) or withContext(Dispatchers.IO)"
      else "Use async HTTP client" }

/-- The Thread.sleep finding of `analyze_java_kotlin`. -/
def jkThreadSleepFinding (lang : String) (suspend : Bool) (n : Nat) : RiskFinding :=
  { rule_id := langUpper lang ++ "_THREAD_SLEEP", severity := "HIGH", category := "blocking",
    message := "Thread.sleep() in " ++ (if suspend then "suspend function" else "server code"),
    line := n,
    why_it_matters := "Thread.sleep blocks the thread, wasting resources and delaying other requests.",
    suggested_fix :=
      if lang = "kotlin" then "Use delay() from kotlinx.coroutines instead"
      else "Consider using ScheduledExecutorService" }

/-- The runBlocking-misuse finding of `analyze_java_kotlin`. -/
def ktRunBlockingFinding (n : Nat) : RiskFinding :=
  { rule_id := "KT_RUNBLOCKING_MISUSE", severity := "HIGH", category := "blocking",
    message := "runBlocking used inside suspend function or request handler", line := n,
    why_it_matters := "runBlocking blocks the current thread, defeating the purpose of coroutines.",
    suggested_fix := "Remove runBlocking and use suspend functions directly, or use coroutineScope {}" }

/-- The empty-catch finding of `analyze_java_kotlin`. -/
def jkEmptyCatchFinding (lang : String) (n : Nat) : RiskFinding :=
  { rule_id := langUpper lang ++ "_EMPTY_CATCH", severity := "HIGH",
    category := "error-handling",
    message := "Empty catch block swallows exception", line := n,
    why_it_matters := "Silent exception handling hides bugs and makes debugging extremely difficult.",
    suggested_fix := "Log the exception, rethrow, or handle appropriately. Never silently ignore." }

/-- The Java resource-leak finding of `analyze_java_kotlin`. -/
def javaLeakFinding (n : Nat) : RiskFinding :=
  { rule_id := "JAVA_RESOURCE_LEAK", severity := "HIGH", category := "error-handling",
    message := "HTTP Response not using try-with-resources", line := n,
    why_it_matters := "Unclosed responses leak connections, eventually exhausting the connection pool.",
    suggested_fix := "Wrap in try-with-resources: try (Response response = ...) { ... }" }

/-- The null-body finding of `analyze_java_kotlin`. -/
def jkNullBodyFinding (lang : String) (n : Nat) : RiskFinding :=
  { rule_id := langUpper lang ++ "_NULL_BODY_ACCESS", severity := "MEDIUM",
    category := "safety",
    message := "Response body accessed without null check", line := n,
    why_it_matters := "Response body can be null, causing NullPointerException in production.",
    suggested_fix :=
      if lang = "kotlin" then "Use response.body?.string() with null-safe operator"
      else "Check if response.body() != null before calling .string()" }

/-- Loop body of `analyze_java_kotlin` for the line at index i (0-based),
following the statement order of the source: handler/suspend flags, brace
depth, flag reset, blocking findings, runBlocking finding, catch opening,
catch accumulation and closing, resource-leak finding, null-body finding. -/
def jkLineStep (lang : String) (lines : List (List Char)) (i : Nat) (line : List Char)
    (st : JKState) : JKState × List RiskFinding :=
  let handler0 := st.inHandler || handlerPatternSearch line
  let suspend0 := st.inSuspend || (lang = "kotlin" && searchAt suspendFunPlainAt line)
  let depth := st.depth + (countChar '{' line : Int) - (countChar '}' line : Int)
  let handler := if depth = 0 then false else handler0
  let suspend := if depth = 0 then false else suspend0
  let inCtx := handler || suspend
  let fs1 :=
    if inCtx && searchAt execCallAt line then [jkBlockingHTTPFinding lang suspend (i + 1)]
    else []
  let fs2 :=
    if inCtx && searchAt threadSleepAt line then [jkThreadSleepFinding lang suspend (i + 1)]
    else []
  let fs3 :=
    if lang = "kotlin" && searchAt runBlockingPlainAt line && (suspend || handler) then
      [ktRunBlockingFinding (i + 1)]
    else []
  let inCatch0 := searchAt catchOpenAt line || st.inCatch
  let catchStart0 := if searchAt catchOpenAt line then i + 1 else st.catchStart
  let catchContent0 := if searchAt catchOpenAt line then [] else st.catchContent
  let catchContent1 :=
    if inCatch0 then catchContent0 ++ line ++ ['\n'] else catchContent0
  let closing := inCatch0 && decide (depth ≤ 0) && line.contains '}'
  let fs4 :=
    if closing && catchBodyVacuous catchContent1 then [jkEmptyCatchFinding lang catchStart0]
    else []
  let inCatch1 := if closing then false else inCatch0
  let fs5 :=
    if lang = "java" && searchAt responseAssignAt line &&
       !searchAt tryParenAt (joinNL ((lines.take i).drop (i - 3))) then
      [javaLeakFinding (i + 1)]
    else []
  let fs6 :=
    if searchAt (bodyAccessAt "string") line || searchAt (bodyAccessAt "bytes") line then
      [jkNullBodyFinding lang (i + 1)]
    else []
  ({ inCatch := inCatch1, catchStart := catchStart0, catchContent := catchContent1,
     depth := depth, inSuspend := suspend, inHandler := handler },
   fs1 ++ fs2 ++ fs3 ++ fs4 ++ fs5 ++ fs6)

/-- Indexed scan loop of `analyze_java_kotlin`. -/
def jkGo (lang : String) (lines : List (List Char)) :
    List (List Char) → Nat → JKState → List RiskFinding
  | [], _, _ => []
  | line :: rest, i, st =>
    let step := jkLineStep lang lines i line st
    step.2 ++ jkGo lang lines rest (i + 1) step.1

/-- `analyze_java_kotlin` of code_analyzer.py. -/
def analyze_java_kotlin (code : List Char) (lang : String) : List RiskFinding :=
  jkGo lang (splitLines code) (splitLines code) 0
    { inCatch := false, catchStart := 0, catchContent := [], depth := 0,
      inSuspend := false, inHandler := false }

/-- Scanner state of `analyze_python`. -/
structure PyState where
  inAsync : Bool
  asyncIndent : Nat
  inExcept : Bool
  exceptStart : Nat
  exceptIndent : Nat
  deriving Repr, DecidableEq

/-- Anchored async-def opener with a trailing whitespace character. -/
def asyncDefOpenMatch (trimmed : List Char) : Bool :=
  match stripLit "async" trimmed with
  | none => false
  | some r1 =>
    match swsPlus r1 with
    | none => false
    | some r2 =>
      match stripLit "def" r2 with
      | none => false
      | some r3 =>
        match r3 with
        | c :: _ => isWSChar c
        | [] => false

/-- Anchored async-def check without the trailing whitespace requirement
(the exclusion used when closing the async region). -/
def asyncDefPreMatch (trimmed : List Char) : Bool :=
  match stripLit "async" trimmed with
  | none => false
  | some r1 =>
    match swsPlus r1 with
    | none => false
    | some r2 => (stripLit "def" r2).isSome

/-- Position check of the broad except clause for the given exception name. -/
def broadExceptAt (name : String) (l : List Char) : Bool :=
  (do
    let r1 ← stripLit "except" l
    let r2 ← swsPlus r1
    let r3 ← stripLit name r2
    let _ ← mchar ':' (sws r3)
    pure ()).isSome

/-- Anchored bare-except match. -/
def bareExceptMatch (trimmed : List Char) : Bool :=
  (do
    let r1 ← stripLit "except" trimmed
    let _ ← mchar ':' (sws r1)
    pure ()).isSome

/-- Position check of the blocking time.sleep call. -/
def timeSleepAt (l : List Char) : Bool :=
  (do
    let r1 ← stripLit "time.sleep" l
    let _ ← mchar '(' (sws r1)
    pure ()).isSome

/-- Position check of a blocking requests call. -/
def requestsCallAt (l : List Char) : Bool :=
  (do
    let r1 ← stripLit "requests." l
    let r2 ← ((stripLit "get" r1).orElse fun _ =>
              (stripLit "post" r1).orElse fun _ =>
              (stripLit "put" r1).orElse fun _ =>
              (stripLit "delete" r1).orElse fun _ => stripLit "patch" r1)
    let _ ← mchar '(' (sws r2)
    pure ()).isSome

/-- Position check of a blocking urlopen call. -/
def urlopenAt (l : List Char) : Bool :=
  (do
    let r1 ← stripLit "urllib.request.urlopen" l
    let _ ← mchar '(' (sws r1)
    pure ()).isSome

/-- Position check of the read-from-opened-file idiom. -/
def openReadAt (l : List Char) : Bool :=
  (do
    let r1 ← stripLit "open" l
    let r2 ← mchar '(' (sws r1)
    let inner := r2.takeWhile (fun c => c ≠ ')')
    if inner.isEmpty then none
    else do
      let r3 ← mchar ')' (r2.dropWhile (fun c => c ≠ ')'))
      let r4 ← stripLit ".read" r3
      let _ ← mchar '(' (sws r4)
      pure ()).isSome

/-- Position check of a blocking subprocess call. -/
def subprocessCallAt (l : List Char) : Bool :=
  (do
    let r1 ← stripLit "subprocess." l
    let r2 ← ((stripLit "run" r1).orElse fun _ =>
              (stripLit "call" r1).orElse fun _ => stripLit "check_output" r1)
    let _ ← mchar '(' (sws r2)
    pure ()).isSome

/-- The blocking-primitive table of `analyze_python`: search and displayed
name, in source order. -/
def pyBlockingChecks : List ((List Char → Bool) × String) :=
  [(searchAt timeSleepAt, "time.sleep()"),
   (searchAt requestsCallAt, "requests.X()"),
   (searchAt urlopenAt, "urllib.request.urlopen()"),
   (searchAt openReadAt, "file.read()"),
   (searchAt subprocessCallAt, "subprocess blocking call")]

/-- Indentation the source computes for a line (zero for blank lines). -/
def lineIndent (line : List Char) : Nat :=
  if (pystrip line).isEmpty then 0 else (line.takeWhile isWSChar).length

/-- The region-closing condition of `analyze_python` (the nested pair of
conditionals that lowers the flag), on the already-updated state. -/
def pyAsyncClear (st1 : PyState) (line : List Char) : Bool :=
  st1.inAsync && decide (lineIndent line ≤ st1.asyncIndent) && !(pystrip line).isEmpty &&
  !asyncDefPreMatch (pystrip line) &&
  !(match pystrip line with | '#' :: _ => true | _ => false) &&
  !(match line with | ' ' :: _ => true | _ => false) && !(pystrip line).isEmpty

/-- The async-region open and close updates of `analyze_python` for one line,
exactly the two leading conditionals of the loop body. -/
def pyAsyncUpdate (st : PyState) (line : List Char) : PyState :=
  let st1 :=
    if asyncDefOpenMatch (pystrip line) then
      { st with inAsync := true, asyncIndent := lineIndent line }
    else st
  if pyAsyncClear st1 line then { st1 with inAsync := false } else st1

/-- The broad-except finding of `analyze_python`. -/
def pyBroadFinding (n : Nat) : RiskFinding :=
  { rule_id := "PY_BROAD_EXCEPT", severity := "MEDIUM", category := "error-handling",
    message := "Broad exception catch (except Exception)", line := n,
    why_it_matters := "Catching Exception catches too many error types, hiding bugs and control flow issues.",
    suggested_fix := "Catch specific exceptions like ValueError, IOError, or create custom exception types." }

/-- The bare-except finding of `analyze_python`. -/
def pyBareFinding (n : Nat) : RiskFinding :=
  { rule_id := "PY_BARE_EXCEPT", severity := "HIGH", category := "error-handling",
    message := "Bare except clause catches all exceptions including SystemExit and KeyboardInterrupt",
    line := n,
    why_it_matters := "Bare except catches system signals, making the program difficult to terminate.",
    suggested_fix := "Use 'except Exception:' at minimum, or better yet, catch specific exceptions." }

/-- The silent-handler finding of `analyze_python`. -/
def pySilentFinding (n : Nat) : RiskFinding :=
  { rule_id := "PY_SILENT_EXCEPT", severity := "HIGH", category := "error-handling",
    message := "Silent exception handler (except: pass)", line := n,
    why_it_matters := "Silently passing on exceptions hides errors and makes debugging impossible.",
    suggested_fix := "Log the exception, re-raise, or handle appropriately." }

/-- The blocking-in-async finding of `analyze_python`. -/
def pyBlockingFinding (name : String) (n : Nat) : RiskFinding :=
  { rule_id := "PY_BLOCKING_IN_ASYNC", severity := "HIGH", category := "blocking",
    message := "Blocking call '" ++ name ++ "' in async function", line := n,
    why_it_matters := "Blocking calls in async functions block the event loop, defeating async benefits.",
    suggested_fix := "Use async alternative: asyncio.sleep(), aiohttp, aiofiles, asyncio.create_subprocess_exec()" }

/-- Loop body of `analyze_python` for the line at index i (0-based),
following the statement order of the source: async-region open and close,
broad-except and bare-except findings, except-block open, silent-handler
close, and the blocking-primitive findings gated on the async flag. -/
def pyLineStep (lines : List (List Char)) (i : Nat) (line : List Char)
    (st : PyState) : PyState × List RiskFinding :=
  let trimmed := pystrip line
  let indent := lineIndent line
  let stA := pyAsyncUpdate st line
  let fs1 :=
    if searchAt (broadExceptAt "Exception") trimmed ||
       searchAt (broadExceptAt "BaseException") trimmed then
      [pyBroadFinding (i + 1)]
    else []
  let fs2 := if bareExceptMatch trimmed then [pyBareFinding (i + 1)] else []
  let stB :=
    if (cs "except").isPrefixOf trimmed then
      { stA with inExcept := true, exceptStart := i + 1, exceptIndent := indent }
    else stA
  let closing :=
    stB.inExcept && decide (indent ≤ stB.exceptIndent) && decide (stB.exceptStart - 1 < i)
  let blockContent :=
    (((lines.take i).drop stB.exceptStart).map pystrip).filter fun s =>
      !s.isEmpty && !(match s with | '#' :: _ => true | _ => false) &&
      !(cs "except").isPrefixOf s
  let fs3 :=
    if closing && blockContent == [cs "pass"] then [pySilentFinding stB.exceptStart]
    else []
  let stC := if closing then { stB with inExcept := false } else stB
  let fs4 :=
    if stA.inAsync then
      pyBlockingChecks.filterMap fun pc =>
        if pc.1 trimmed then some (pyBlockingFinding pc.2 (i + 1)) else none
    else []
  (stC, fs1 ++ fs2 ++ fs3 ++ fs4)

/-- Indexed scan loop of `analyze_python`. -/
def pyGo (lines : List (List Char)) :
    List (List Char) → Nat → PyState → List RiskFinding
  | [], _, _ => []
  | line :: rest, i, st =>
    let step := pyLineStep lines i line st
    step.2 ++ pyGo lines rest (i + 1) step.1

/-- `analyze_python` of code_analyzer.py. -/
def analyze_python (code : List Char) : List RiskFinding :=
  pyGo (splitLines code) (splitLines code) 0
    { inAsync := false, asyncIndent := 0, inExcept := false, exceptStart := 0,
      exceptIndent := 0 }

/-- `analyze_code` of code_analyzer.py: detect the language, dispatch to the
matching scanner, and record the unknown-language limitation. -/
def analyze_code (code : List Char) : AnalysisResult :=
  let language := detect_language code
  let lines_scanned := (splitLines code).length
  let findings :=
    if language = "javascript" then analyze_javascript code
    else if language = "java" then analyze_java_kotlin code "java"
    else if language = "kotlin" then analyze_java_kotlin code "kotlin"
    else if language = "python" then analyze_python code
    else []
  let parser_used :=
    if language = "javascript" || language = "java" || language = "kotlin" ||
       language = "python" then "Regex-based structural analysis"
    else "No parser available"
  let limitations :=
    if language = "unknown" then
      ["Could not detect language; analysis may be incomplete."]
    else []
  { language := language, parser_used := parser_used, lines_scanned := lines_scanned,
    findings := findings, limitations := limitations }

/-- One presentation risk record of `convert_to_ui_format`. -/
structure UIRisk where
  line : Nat
  rtype : String
  description : String
  severity : String
  deriving Repr, DecidableEq

/-- The presentation shape `convert_to_ui_format` returns. -/
structure UIFormat where
  blockingCalls : List UIRisk
  threadSafetyRisks : List UIRisk
  errorHandlingGaps : List UIRisk
  performanceConcerns : List UIRisk
  bestPractices : List String
  deriving Repr, DecidableEq

/-- The risk record built for one finding (the type field keeps the text
before the first quote, or the first thirty characters). -/
def mkUIRisk (f : RiskFinding) : UIRisk :=
  let msg := cs f.message
  let q : Char := '\''
  { line := f.line
    rtype :=
      if msg.contains q then String.mk (pystrip (msg.takeWhile (fun c => c ≠ q)))
      else String.mk (msg.take 30)
    description := f.message
    severity := f.severity.map Char.toLower }

/-- `convert_to_ui_format` of code_analyzer.py: group findings by category
(safety joins the error-handling list) and derive the best-practices list. -/
def convert_to_ui_format (result : AnalysisResult) : UIFormat :=
  let fs := result.findings
  let bps :=
    (if fs.any (fun f => f.category == "blocking") then
       ["Use asynchronous APIs for I/O operations to avoid blocking."] else []) ++
    (if fs.any (fun f => f.category == "error-handling") then
       ["Always handle exceptions explicitly and log relevant context."] else []) ++
    (if fs.any (fun f => f.category == "safety") then
       ["Add null checks and validate inputs before use."] else [])
  { blockingCalls :=
      fs.filterMap fun f => if f.category == "blocking" then some (mkUIRisk f) else none
    threadSafetyRisks :=
      fs.filterMap fun f => if f.category == "thread-safety" then some (mkUIRisk f) else none
    errorHandlingGaps :=
      fs.filterMap fun f =>
        if f.category == "error-handling" || f.category == "safety" then some (mkUIRisk f)
        else none
    performanceConcerns :=
      fs.filterMap fun f => if f.category == "performance" then some (mkUIRisk f) else none
    bestPractices :=
      if bps = [] then
        ["No specific issues detected. Consider running additional static analysis tools."]
      else bps }

/-! Claim theorems. -/

/-- Input of the C1 scenario. -/
def c1Input : List Char :=
  cs "2024-01-01T10:00:00Z ERROR [PaymentService] Connection refused #4521\n2024-01-01T10:00:05Z ERROR [PaymentService] Connection refused #9983"

/-- First entry the C1 scenario produces. -/
def c1Entry1 : LogEntry :=
  { id := 0, timestamp := cs "2024-01-01T10:00:00Z", level := cs "ERROR",
    message := cs "Connection refused #4521", source := some (cs "PaymentService"),
    stackTrace := none }

/-- Second entry the C1 scenario produces. -/
def c1Entry2 : LogEntry :=
  { id := 1, timestamp := cs "2024-01-01T10:00:05Z", level := cs "ERROR",
    message := cs "Connection refused #9983", source := some (cs "PaymentService"),
    stackTrace := none }

set_option maxHeartbeats 2000000 in
/-- C1: for the two-line PaymentService input, the pipeline parse_logs then
group_errors yields exactly two entries, both with level ERROR and source
PaymentService, and exactly one ErrorGroup with severity medium and count 2
(for every value of the synthesized current time, which this input never
needs). -/
theorem c1_log_pipeline_scenario (now : List Char) :
    (parse_logs now c1Input).length = 2 ∧
    (parse_logs now c1Input).map LogEntry.level = [cs "ERROR", cs "ERROR"] ∧
    (parse_logs now c1Input).map LogEntry.source =
      [some (cs "PaymentService"), some (cs "PaymentService")] ∧
    (group_errors (parse_logs now c1Input)).length = 1 ∧
    (group_errors (parse_logs now c1Input)).map ErrorGroup.severity = ["medium"] ∧
    (group_errors (parse_logs now c1Input)).map ErrorGroup.count = [2] := by
  have h : parse_logs now c1Input = [c1Entry1, c1Entry2] := rfl
  rw [h]
  refine ⟨rfl, rfl, rfl, ?_, ?_, ?_⟩ <;> decide

/-- C7: detect_language always returns one of the five category strings (in
the embedding it is a total function, so it cannot raise). -/
theorem c7_detect_language_total (code : List Char) :
    detect_language code ∈ ["python", "javascript", "java", "kotlin", "unknown"] := by
  unfold detect_language
  split_ifs <;> decide

/-- C8: the code scanner on the empty string reports language unknown, an
empty findings list, and a non-empty limitations list. -/
theorem c8_empty_input_scenario :
    (analyze_code (cs "")).language = "unknown" ∧
    (analyze_code (cs "")).findings = [] ∧
    (analyze_code (cs "")).limitations ≠ [] :=
  ⟨rfl, rfl, by decide⟩

/-- C9: the scanner is deterministic: analyze_code is a pure function of the
input text in this embedding (the source reads no clock and no randomness, so
no such parameter had to be threaded through, unlike parse_logs with its
current-time parameter), and two runs on identical input give identical
results, findings included. -/
theorem c9_scanner_deterministic (code code2 : List Char) (h : code = code2) :
    analyze_code code = analyze_code code2 ∧
    (analyze_code code).findings = (analyze_code code2).findings := by
  subst h; exact ⟨rfl, rfl⟩

/-- C9 witness at a concrete input. -/
theorem c9_witness :
    analyze_code (cs "const x = 1;") = analyze_code (cs "const x = 1;") ∧
    (analyze_code (cs "const x = 1;")).findings =
      (analyze_code (cs "const x = 1;")).findings :=
  c9_scanner_deterministic (cs "const x = 1;") (cs "const x = 1;") rfl

/-- Input of the C2 counterexample. -/
def c2Snippet : List Char := cs "Response r = x;"

/-- C2 counterexample: a Java snippet whose only line is a response-like
assignment with no try-with-resources in the preceding three lines; the
scanner emits exactly the resource-leak finding and its severity is HIGH,
not MEDIUM as the claim states (no MEDIUM finding exists at all). -/
theorem c2_counterexample :
    analyze_java_kotlin c2Snippet "java" = [javaLeakFinding 1] ∧
    (javaLeakFinding 1).severity = "HIGH" ∧
    ((analyze_java_kotlin c2Snippet "java").all
      fun f => !(f.severity == "MEDIUM" && f.category == "error-handling")) = true :=
  ⟨rfl, rfl, by decide⟩

/-- Input of the C6 counterexample: two UUID-shaped tokens (the shape the
source masks, 8-4-4-4-12 case-insensitive hex), one of them with an all-digit
first group. -/
def c6UuidMsg1 : List Char := cs "12345678-aaaa-bbbb-cccc-dddddddddddd"

/-- Second UUID-shaped message of the C6 counterexample. -/
def c6UuidMsg2 : List Char := cs "abcdefab-aaaa-bbbb-cccc-dddddddddddd"

/-- C6 counterexample: both messages are single UUID-shaped tokens (the UUID
matcher of the source consumes each whole message), they differ only in that
token and share the (absent) source, yet their fingerprints differ: the
integer rule rewrites the all-digit first group of the first message before
the UUID rule can see it. -/
theorem c6_counterexample :
    matchUUIDAt c6UuidMsg1 = some [] ∧
    matchUUIDAt c6UuidMsg2 = some [] ∧
    create_error_pattern c6UuidMsg1 none ≠ create_error_pattern c6UuidMsg2 none :=
  ⟨rfl, rfl, by decide⟩

/-- Input of the C3 counterexample. -/
def c3Input : List Char := cs "2024-01-01T10:00:00Z ERROR oops\n continued"

/-- C3 counterexample: the second line has leading whitespace (one space),
carries neither timestamp nor level and is not a stack-trace line, an entry
is in progress, yet the assembler space-joins its text onto the message and
leaves the trace buffer empty — the claim says an indented line joins the
trace buffer, but the source only sends two-space or tab prefixes there. -/
theorem c3_counterexample :
    (cs " continued").takeWhile isWSChar ≠ [] ∧
    (parse_line (cs " continued")).isTrace = false ∧
    (parse_line (cs " continued")).timestamp = none ∧
    (parse_line (cs " continued")).level = none ∧
    (parse_logs (cs "T0") c3Input).map (fun e => (e.message, e.stackTrace)) =
      [(cs "oops continued", none)] := by
  refine ⟨by decide, rfl, rfl, rfl, by decide⟩

/-- C3 amended: while an entry is in progress, a non-blank line that is not
classified as a stack-trace continuation and carries neither timestamp nor
level is appended (stripped) to the trace buffer exactly when it starts with
two spaces or a tab; otherwise — including a line indented by a single
space — its parsed message residue is space-joined onto the current entry's
message. -/
theorem c3_amended (now : List Char) (st : AsmState) (e : CurEntry) (line : List Char)
    (hcur : st.current = some e) (hne : pystrip line ≠ [])
    (htr : (parse_line line).isTrace = false)
    (hts : (parse_line line).timestamp = none)
    (hlv : (parse_line line).level = none) :
    parseLogsStep now st line =
      if (cs "  ").isPrefixOf line || ['\t'].isPrefixOf line then
        { st with trace := st.trace ++ [pystrip line] }
      else
        { st with
          current := some { e with message := e.message ++ ' ' :: (parse_line line).message } } := by
  simp only [parseLogsStep, htr, hts, hlv, hcur, if_neg hne, Option.isSome_none,
    Bool.or_self, Bool.false_eq_true, if_false]

/-- In-progress entry of the C3 witness state. -/
def c3Cur : CurEntry :=
  { timestamp := some (cs "2024-01-01T10:00:00Z"), level := some (cs "ERROR"),
    source := none, message := cs "oops" }

/-- Assembler state of the C3 witness. -/
def c3State : AsmState :=
  { entries := [], current := some c3Cur, trace := [], nextId := 0 }

/-- C3 witness: the amended statement applied to a concrete in-progress state
and the single-space continuation line. -/
theorem c3_witness :
    parseLogsStep (cs "T0") c3State (cs " continued") =
      if (cs "  ").isPrefixOf (cs " continued") || ['\t'].isPrefixOf (cs " continued") then
        { c3State with trace := c3State.trace ++ [pystrip (cs " continued")] }
      else
        { c3State with
          current := some { c3Cur with
            message := c3Cur.message ++ ' ' :: (parse_line (cs " continued")).message } } :=
  c3_amended (cs "T0") c3State c3Cur (cs " continued") rfl (by decide) rfl rfl rfl

/-- End-of-region test as claim C4 words it: a line at or below the opener's
indentation that is not blank, not a comment, and not another async def. -/
def claimEndLine (lines : List (List Char)) (k m : Nat) : Bool :=
  decide (lineIndent (lines.getD m []) ≤ lineIndent (lines.getD k [])) &&
  !(pystrip (lines.getD m [])).isEmpty &&
  !asyncDefPreMatch (pystrip (lines.getD m [])) &&
  !(match pystrip (lines.getD m []) with | '#' :: _ => true | _ => false)

/-- Region membership as claim C4 words it: an async-def opener line at or
before this line with no end line after the opener up to and including this
line. -/
def claimAsyncInside (lines : List (List Char)) (j : Nat) : Bool :=
  (List.range (j + 1)).any fun k =>
    asyncDefOpenMatch (pystrip (lines.getD k [])) &&
    ((List.range' (k + 1) (j - k)).all fun m => !claimEndLine lines k m)

/-- End-of-region test as the source implements it: the claim's condition
plus the requirement that the line not begin with a space character. -/
def amendedEndLine (lines : List (List Char)) (k m : Nat) : Bool :=
  claimEndLine lines k m &&
  !(match lines.getD m [] with | ' ' :: _ => true | _ => false)

/-- Region membership with the source's end condition. -/
def amendedAsyncInside (lines : List (List Char)) (j : Nat) : Bool :=
  (List.range (j + 1)).any fun k =>
    asyncDefOpenMatch (pystrip (lines.getD k [])) &&
    ((List.range' (k + 1) (j - k)).all fun m => !amendedEndLine lines k m)

/-- Input of the C4 counterexample: a nested async def whose region, per the
claim, ends at the sibling def on line 4. -/
def c4Snippet : List Char :=
  cs "class A:\n    async def f(self):\n        pass\n    def g(self):\n        time.sleep(1)"

/-- C4 counterexample: line 4 satisfies the claim's end condition for the
async def opened on line 2, so line 5 lies outside every claim region, yet
the scanner emits a PY_BLOCKING_IN_ASYNC finding there (the source's extra
no-leading-space requirement keeps the region open past the space-indented
line 4). -/
theorem c4_counterexample :
    ((analyze_python c4Snippet).map fun f => (f.rule_id, f.line)) =
      [("PY_BLOCKING_IN_ASYNC", 5)] ∧
    claimEndLine (splitLines c4Snippet) 1 3 = true ∧
    claimAsyncInside (splitLines c4Snippet) 4 = false := by
  refine ⟨by decide, by decide, by decide⟩

/-- Digits are skipped while the hash scanner consumes a replaced run. -/
theorem subHashGo_skip_digits (s : List Char) :
    ∀ d : List Char, (∀ c ∈ d, c.isDigit = true) →
      subHashGo true (d ++ s) = subHashGo true s := by
  intro d
  induction d with
  | nil => intro _; rfl
  | cons c t ih =>
    intro hd
    have hc : c.isDigit = true := hd c (List.mem_cons_self _ _)
    simp only [List.cons_append, subHashGo, hc, Bool.and_true, if_pos]
    exact ih fun x hx => hd x (List.mem_cons_of_mem _ hx)

/-- A hash directly followed by a nonempty digit run rewrites to the text #ID
with the digits consumed, from any scanner state. -/
theorem subHashGo_at_hash (s : List Char) (b : Bool) :
    ∀ d : List Char, d ≠ [] → (∀ c ∈ d, c.isDigit = true) →
      subHashGo b ('#' :: (d ++ s)) = '#' :: 'I' :: 'D' :: subHashGo true s := by
  intro d hne hd
  cases d with
  | nil => exact absurd rfl hne
  | cons c t =>
    have hc : c.isDigit = true := hd c (List.mem_cons_self _ _)
    have hskip := subHashGo_skip_digits s (c :: t) hd
    have key : ∀ b' : Bool, subHashGo b' ('#' :: (c :: (t ++ s))) =
        '#' :: 'I' :: 'D' :: subHashGo true (c :: (t ++ s)) := by
      intro b'
      cases b' <;> simp [subHashGo, hc]
    calc subHashGo b ('#' :: ((c :: t) ++ s))
        = '#' :: 'I' :: 'D' :: subHashGo true ((c :: t) ++ s) := key b
      _ = '#' :: 'I' :: 'D' :: subHashGo true s := by rw [hskip]

/-- The hash scanner gives the same output on two inputs that differ only in
the nonempty digit run directly after one hash sign. -/
theorem subHashGo_hash_invariant (s d1 d2 : List Char)
    (h1 : d1 ≠ []) (hd1 : ∀ c ∈ d1, c.isDigit = true)
    (h2 : d2 ≠ []) (hd2 : ∀ c ∈ d2, c.isDigit = true) :
    ∀ p : List Char, ∀ b : Bool,
      subHashGo b (p ++ '#' :: (d1 ++ s)) = subHashGo b (p ++ '#' :: (d2 ++ s)) := by
  intro p
  induction p with
  | nil =>
    intro b
    simp only [List.nil_append]
    rw [subHashGo_at_hash s b d1 h1 hd1, subHashGo_at_hash s b d2 h2 hd2]
  | cons c p ih =>
    intro b
    have hmatch :
        (match p ++ '#' :: (d1 ++ s) with | d :: _ => d.isDigit | [] => false) =
        (match p ++ '#' :: (d2 ++ s) with | d :: _ => d.isDigit | [] => false) := by
      cases p <;> rfl
    simp only [List.cons_append, subHashGo, List.append_eq]
    rw [hmatch, ih true, ih false]

/-- C6 amended: create_error_pattern is deterministic, and two messages that
differ only in the nonempty digit run of one #-prefixed numeric ID produce
the same fingerprint when the source tag is the same (the analogous claim
for the other token kinds is refuted by the counterexample: an earlier
masking rule can rewrite part of the token first). -/
theorem c6_amended_fingerprint (src : Option (List Char)) (p s d1 d2 : List Char)
    (h1 : d1 ≠ []) (hd1 : ∀ c ∈ d1, c.isDigit = true)
    (h2 : d2 ≠ []) (hd2 : ∀ c ∈ d2, c.isDigit = true) :
    create_error_pattern (p ++ '#' :: (d1 ++ s)) src =
      create_error_pattern (p ++ '#' :: (d2 ++ s)) src ∧
    ∀ m : List Char, create_error_pattern m src = create_error_pattern m src := by
  refine ⟨?_, fun m => rfl⟩
  simp only [create_error_pattern, subHashId]
  rw [subHashGo_hash_invariant s d1 d2 h1 hd1 h2 hd2 p false]

/-- C6 witness: two concrete messages differing only in the digits of a
#-prefixed ID fingerprint identically. -/
theorem c6_witness :
    create_error_pattern (cs "x" ++ '#' :: (cs "123" ++ cs " fail")) none =
      create_error_pattern (cs "x" ++ '#' :: (cs "98765" ++ cs " fail")) none :=
  (c6_amended_fingerprint none (cs "x") (cs " fail") (cs "123") (cs "98765")
    (by decide) (by decide) (by decide) (by decide)).1

/-- Membership in a conditional singleton-or-empty list forces the condition
and the membership. -/
theorem mem_ite_nil_elim {α : Type} {b : Bool} {l : List α} {x : α}
    (h : x ∈ if b = true then l else []) : b = true ∧ x ∈ l := by
  cases b <;> simp_all

/-- The resource-leak finding is emitted by the step of every state when the
line matches the response assignment and the previous three lines carry no
try-with-resources opener. -/
theorem jkLineStep_leak (lines : List (List Char)) (i : Nat) (line : List Char)
    (st : JKState)
    (hra : searchAt responseAssignAt line = true)
    (htp : searchAt tryParenAt (joinNL ((lines.take i).drop (i - 3))) = false) :
    javaLeakFinding (i + 1) ∈ (jkLineStep "java" lines i line st).2 := by
  simp only [jkLineStep]
  simp [hra, htp]

/-- Scanning from any index at or before the matching line keeps the
resource-leak finding in the output. -/
theorem jkGo_leak_mem (lines : List (List Char)) (j : Nat)
    (hra : searchAt responseAssignAt (lines.getD j []) = true)
    (htp : searchAt tryParenAt (joinNL ((lines.take j).drop (j - 3))) = false) :
    ∀ rem : List (List Char), ∀ i : Nat, ∀ st : JKState,
      rem = lines.drop i → i ≤ j → j < lines.length →
      javaLeakFinding (j + 1) ∈ jkGo "java" lines rem i st := by
  intro rem
  induction rem with
  | nil =>
    intro i st hdrop hij hj
    exact absurd (List.drop_eq_nil_iff.mp hdrop.symm) (by omega)
  | cons line rest ih =>
    intro i st hdrop hij hj
    have hi : i < lines.length := by
      by_contra hcon
      rw [List.drop_eq_nil_iff.mpr (by omega)] at hdrop
      exact List.cons_ne_nil _ _ hdrop
    rw [List.drop_eq_getElem_cons hi] at hdrop
    have hline : line = lines[i] := (List.cons_eq_cons.mp hdrop).1
    have hrest : rest = lines.drop (i + 1) := (List.cons_eq_cons.mp hdrop).2
    simp only [jkGo]
    rcases Nat.eq_or_lt_of_le hij with rfl | hlt
    · refine List.mem_append_left _ ?_
      rw [hline]
      have : lines.getD i [] = lines[i] := List.getD_eq_getElem lines [] hi
      rw [this] at hra
      exact jkLineStep_leak lines i lines[i] st hra htp
    · exact List.mem_append_right _ (ih (i + 1) _ hrest (by omega) hj)

/-- C2 amended: for every Java snippet, a line matching the response-like
assignment pattern that is not preceded within the last three lines by the
try-with-resources pattern produces the resource-leak finding at that line —
with severity HIGH and category error-handling. -/
theorem c2_amended_severity (code : List Char) (j : Nat)
    (hj : j < (splitLines code).length)
    (hra : searchAt responseAssignAt ((splitLines code).getD j []) = true)
    (htp : searchAt tryParenAt
      (joinNL (((splitLines code).take j).drop (j - 3))) = false) :
    javaLeakFinding (j + 1) ∈ analyze_java_kotlin code "java" ∧
    (javaLeakFinding (j + 1)).severity = "HIGH" ∧
    (javaLeakFinding (j + 1)).category = "error-handling" := by
  refine ⟨?_, rfl, rfl⟩
  exact jkGo_leak_mem (splitLines code) j hra htp (splitLines code) 0 _ rfl (by omega) hj

/-- C2 witness: the amended statement at the one-line snippet. -/
theorem c2_witness :
    javaLeakFinding 1 ∈ analyze_java_kotlin (cs "Response r = x;") "java" ∧
    (javaLeakFinding 1).severity = "HIGH" ∧
    (javaLeakFinding 1).category = "error-handling" :=
  c2_amended_severity (cs "Response r = x;") 0 (by decide) (by decide) (by decide)

/-- Every JavaScript finding carries category blocking, error-handling or
safety. -/
theorem analyze_javascript_category (code : List Char) (f : RiskFinding)
    (hf : f ∈ analyze_javascript code) :
    f.category = "blocking" ∨ f.category = "error-handling" ∨ f.category = "safety" := by
  unfold analyze_javascript at hf
  rw [List.mem_flatMap] at hf
  obtain ⟨p, _, hf⟩ := hf
  rcases List.mem_append.mp hf with hf | hf
  · obtain ⟨m, _, hm⟩ := List.mem_filterMap.mp hf
    split at hm
    · cases Option.some_inj.mp hm
      left; rfl
    · exact absurd hm (by simp)
  · obtain ⟨_, hm⟩ := mem_ite_nil_elim hf
    rw [List.mem_singleton.mp hm]
    right; left; rfl

/-- Every finding one Java/Kotlin step emits carries category blocking,
error-handling or safety. -/
theorem jkLineStep_category (lang : String) (lines : List (List Char)) (i : Nat)
    (line : List Char) (st : JKState) (f : RiskFinding)
    (hf : f ∈ (jkLineStep lang lines i line st).2) :
    f.category = "blocking" ∨ f.category = "error-handling" ∨ f.category = "safety" := by
  simp only [jkLineStep] at hf
  rcases List.mem_append.mp hf with hf | hf
  · rcases List.mem_append.mp hf with hf | hf
    · rcases List.mem_append.mp hf with hf | hf
      · rcases List.mem_append.mp hf with hf | hf
        · rcases List.mem_append.mp hf with hf | hf
          · obtain ⟨_, hm⟩ := mem_ite_nil_elim hf
            rw [List.mem_singleton.mp hm]; left; rfl
          · obtain ⟨_, hm⟩ := mem_ite_nil_elim hf
            rw [List.mem_singleton.mp hm]; left; rfl
        · obtain ⟨_, hm⟩ := mem_ite_nil_elim hf
          rw [List.mem_singleton.mp hm]; left; rfl
      · obtain ⟨_, hm⟩ := mem_ite_nil_elim hf
        rw [List.mem_singleton.mp hm]; right; left; rfl
    · obtain ⟨_, hm⟩ := mem_ite_nil_elim hf
      rw [List.mem_singleton.mp hm]; right; left; rfl
  · obtain ⟨_, hm⟩ := mem_ite_nil_elim hf
    rw [List.mem_singleton.mp hm]; right; right; rfl

/-- Category soundness of the whole Java/Kotlin scan. -/
theorem jkGo_category (lang : String) (lines : List (List Char)) :
    ∀ rem : List (List Char), ∀ i : Nat, ∀ st : JKState, ∀ f : RiskFinding,
      f ∈ jkGo lang lines rem i st →
      f.category = "blocking" ∨ f.category = "error-handling" ∨ f.category = "safety" := by
  intro rem
  induction rem with
  | nil => intro i st f hf; simp [jkGo] at hf
  | cons line rest ih =>
    intro i st f hf
    simp only [jkGo] at hf
    rcases List.mem_append.mp hf with hf | hf
    · exact jkLineStep_category lang lines i line st f hf
    · exact ih _ _ _ hf

/-- Every finding one Python step emits carries category blocking,
error-handling or safety. -/
theorem pyLineStep_category (lines : List (List Char)) (i : Nat)
    (line : List Char) (st : PyState) (f : RiskFinding)
    (hf : f ∈ (pyLineStep lines i line st).2) :
    f.category = "blocking" ∨ f.category = "error-handling" ∨ f.category = "safety" := by
  simp only [pyLineStep] at hf
  rcases List.mem_append.mp hf with hf | hf
  · rcases List.mem_append.mp hf with hf | hf
    · rcases List.mem_append.mp hf with hf | hf
      · obtain ⟨_, hm⟩ := mem_ite_nil_elim hf
        rw [List.mem_singleton.mp hm]; right; left; rfl
      · obtain ⟨_, hm⟩ := mem_ite_nil_elim hf
        rw [List.mem_singleton.mp hm]; right; left; rfl
    · obtain ⟨_, hm⟩ := mem_ite_nil_elim hf
      rw [List.mem_singleton.mp hm]; right; left; rfl
  · obtain ⟨_, hm⟩ := mem_ite_nil_elim hf
    obtain ⟨pc, _, hpc⟩ := List.mem_filterMap.mp hm
    split at hpc
    · cases Option.some_inj.mp hpc
      left; rfl
    · exact absurd hpc (by simp)

/-- Category soundness of the whole Python scan. -/
theorem pyGo_category (lines : List (List Char)) :
    ∀ rem : List (List Char), ∀ i : Nat, ∀ st : PyState, ∀ f : RiskFinding,
      f ∈ pyGo lines rem i st →
      f.category = "blocking" ∨ f.category = "error-handling" ∨ f.category = "safety" := by
  intro rem
  induction rem with
  | nil => intro i st f hf; simp [pyGo] at hf
  | cons line rest ih =>
    intro i st f hf
    simp only [pyGo] at hf
    rcases List.mem_append.mp hf with hf | hf
    · exact pyLineStep_category lines i line st f hf
    · exact ih _ _ _ hf

/-- Category soundness of the dispatcher. -/
theorem analyze_code_category (code : List Char) (f : RiskFinding)
    (hf : f ∈ (analyze_code code).findings) :
    f.category = "blocking" ∨ f.category = "error-handling" ∨ f.category = "safety" := by
  simp only [analyze_code] at hf
  split_ifs at hf
  · exact analyze_javascript_category code f hf
  · exact jkGo_category "java" _ _ _ _ f hf
  · exact jkGo_category "kotlin" _ _ _ _ f hf
  · exact pyGo_category _ _ _ _ f hf
  · exact absurd hf (by simp)

/-- C10: no finding of any language scanner carries category thread-safety or
performance — every finding is blocking, error-handling or safety — so the
formatter's threadSafetyRisks and performanceConcerns lists are empty for
every input. -/
theorem c10_no_thread_safety_or_performance (code : List Char) :
    ((analyze_code code).findings.all fun f =>
      f.category == "blocking" || f.category == "error-handling" ||
      f.category == "safety") = true ∧
    (convert_to_ui_format (analyze_code code)).threadSafetyRisks = [] ∧
    (convert_to_ui_format (analyze_code code)).performanceConcerns = [] := by
  refine ⟨?_, ?_, ?_⟩
  · rw [List.all_eq_true]
    intro f hf
    rcases analyze_code_category code f hf with h | h | h <;> simp [h]
  · simp only [convert_to_ui_format]
    rw [List.filterMap_eq_nil_iff]
    intro f hf
    rcases analyze_code_category code f hf with h | h | h <;> simp [h]
  · simp only [convert_to_ui_format]
    rw [List.filterMap_eq_nil_iff]
    intro f hf
    rcases analyze_code_category code f hf with h | h | h <;> simp [h]

/-- An async-def opener (with its trailing whitespace requirement) also
matches the weaker async-def check used when closing the region. -/
theorem asyncDefOpen_imp_pre (t : List Char) (h : asyncDefOpenMatch t = true) :
    asyncDefPreMatch t = true := by
  unfold asyncDefOpenMatch at h
  unfold asyncDefPreMatch
  cases h1 : stripLit "async" t with
  | none => simp [h1] at h
  | some r1 =>
    simp only [h1] at h ⊢
    cases h2 : swsPlus r1 with
    | none => simp [h2] at h
    | some r2 =>
      simp only [h2] at h ⊢
      cases h3 : stripLit "def" r2 with
      | none => simp [h3] at h
      | some r3 => simp [h3]

/-- A state without the async flag never clears. -/
theorem pyAsyncClear_not_async (st1 : PyState) (line : List Char)
    (h : st1.inAsync = false) : pyAsyncClear st1 line = false := by
  simp [pyAsyncClear, h]

/-- A line whose stripped text matches the weak async-def check never
clears. -/
theorem pyAsyncClear_pre (st1 : PyState) (line : List Char)
    (hpre : asyncDefPreMatch (pystrip line) = true) :
    pyAsyncClear st1 line = false := by
  simp [pyAsyncClear, hpre]

/-- Invariant of the async-region state: whenever the flag is up there is an
opener line before the scan position whose amended region is still open. -/
def pyAsyncInv (lines : List (List Char)) (i : Nat) (st : PyState) : Prop :=
  st.inAsync = true →
    ∃ k : Nat, k < i ∧ asyncDefOpenMatch (pystrip (lines.getD k [])) = true ∧
      st.asyncIndent = lineIndent (lines.getD k []) ∧
      ∀ m : Nat, k < m → m < i → amendedEndLine lines k m = false

/-- A region witness up to the current line makes the line amended-inside. -/
theorem amendedAsyncInside_of_witness (lines : List (List Char)) (i k : Nat)
    (hk : k < i + 1) (hopen : asyncDefOpenMatch (pystrip (lines.getD k [])) = true)
    (hall : ∀ m : Nat, k < m → m ≤ i → amendedEndLine lines k m = false) :
    amendedAsyncInside lines i = true := by
  unfold amendedAsyncInside
  rw [List.any_eq_true]
  refine ⟨k, List.mem_range.mpr hk, ?_⟩
  rw [Bool.and_eq_true]
  refine ⟨hopen, ?_⟩
  rw [List.all_eq_true]
  intro m hm
  have hm' := List.mem_range'_1.mp hm
  simp [hall m (by omega) (by omega)]

/-- On a flagged state whose stored indentation is the opener's, the clearing
condition coincides with the amended end-of-region test. -/
theorem pyAsyncClear_iff_end (lines : List (List Char)) (k i : Nat) (st1 : PyState)
    (hasync : st1.inAsync = true)
    (hind : st1.asyncIndent = lineIndent (lines.getD k [])) :
    pyAsyncClear st1 (lines.getD i []) = amendedEndLine lines k i := by
  unfold pyAsyncClear amendedEndLine claimEndLine
  rw [hasync, hind]
  cases h1 : decide (lineIndent (lines.getD i []) ≤ lineIndent (lines.getD k [])) <;>
    cases h2 : (pystrip (lines.getD i [])).isEmpty <;>
      cases h3 : asyncDefPreMatch (pystrip (lines.getD i [])) <;>
        cases h4 : (match pystrip (lines.getD i []) with | '#' :: _ => true | _ => false) <;>
          cases h5 : (match lines.getD i [] with | ' ' :: _ => true | _ => false) <;>
            simp [h1, h2, h3, h4, h5, lineIndent]

/-- One async update preserves the invariant, and a raised flag after the
update places the current line inside an amended region. -/
theorem pyAsyncUpdate_sound (lines : List (List Char)) (i : Nat) (st : PyState)
    (line : List Char) (hline : lines.getD i [] = line)
    (hInv : pyAsyncInv lines i st) :
    pyAsyncInv lines (i + 1) (pyAsyncUpdate st line) ∧
    ((pyAsyncUpdate st line).inAsync = true → amendedAsyncInside lines i = true) := by
  by_cases hopen : asyncDefOpenMatch (pystrip line) = true
  · have hpre := asyncDefOpen_imp_pre _ hopen
    have hres : pyAsyncUpdate st line =
        { st with inAsync := true, asyncIndent := lineIndent line } := by
      unfold pyAsyncUpdate
      rw [if_pos hopen, if_neg]
      intro hcon
      rw [pyAsyncClear_pre _ _ hpre] at hcon
      exact Bool.false_ne_true hcon
    rw [hres]
    constructor
    · intro _
      exact ⟨i, by omega, by rw [hline]; exact hopen, by rw [hline], fun m h1 h2 => by omega⟩
    · intro _
      exact amendedAsyncInside_of_witness lines i i (by omega)
        (by rw [hline]; exact hopen) (fun m h1 h2 => by omega)
  · have hst1 : pyAsyncUpdate st line =
        (if pyAsyncClear st line then { st with inAsync := false } else st) := by
      unfold pyAsyncUpdate
      rw [if_neg hopen]
    by_cases hasync : st.inAsync = true
    · obtain ⟨k, hk, hko, hki, hknoe⟩ := hInv hasync
      have hiff := pyAsyncClear_iff_end lines k i st hasync hki
      rw [hline] at hiff
      by_cases hC : pyAsyncClear st line = true
      · rw [hst1, if_pos hC]
        exact ⟨fun hA => absurd hA (by simp), fun hA => absurd hA (by simp)⟩
      · have hCf : pyAsyncClear st line = false := by
          cases h' : pyAsyncClear st line
          · rfl
          · exact absurd h' hC
        have hnoe : amendedEndLine lines k i = false := by rw [← hiff]; exact hCf
        rw [hst1, if_neg hC]
        constructor
        · intro _
          refine ⟨k, by omega, hko, hki, fun m h1 h2 => ?_⟩
          rcases Nat.lt_or_ge m i with hmi | hmi
          · exact hknoe m h1 hmi
          · have hmeq : m = i := by omega
            rw [hmeq]; exact hnoe
        · intro _
          refine amendedAsyncInside_of_witness lines i k (by omega) hko
            (fun m h1 h2 => ?_)
          rcases Nat.lt_or_ge m i with hmi | hmi
          · exact hknoe m h1 hmi
          · have hmeq : m = i := by omega
            rw [hmeq]; exact hnoe
    · have hfalse : st.inAsync = false := by
        cases h' : st.inAsync
        · rfl
        · exact absurd h' hasync
      have hCf : pyAsyncClear st line = false := pyAsyncClear_not_async st line hfalse
      rw [hst1, if_neg (by rw [hCf]; exact Bool.false_ne_true)]
      exact ⟨fun hA => absurd hA hasync, fun hA => absurd hA hasync⟩

/-- The except-handling part of the step leaves the async fields alone. -/
theorem pyLineStep_async_fields (lines : List (List Char)) (i : Nat)
    (line : List Char) (st : PyState) :
    (pyLineStep lines i line st).1.inAsync = (pyAsyncUpdate st line).inAsync ∧
    (pyLineStep lines i line st).1.asyncIndent = (pyAsyncUpdate st line).asyncIndent := by
  simp only [pyLineStep]
  split_ifs <;> simp

/-- A blocking finding in one step's output forces the async flag after the
update and anchors the finding at the current line. -/
theorem pyLineStep_blocking_mem (lines : List (List Char)) (i : Nat)
    (line : List Char) (st : PyState) (f : RiskFinding)
    (hf : f ∈ (pyLineStep lines i line st).2)
    (hr : f.rule_id = "PY_BLOCKING_IN_ASYNC") :
    (pyAsyncUpdate st line).inAsync = true ∧ f.line = i + 1 := by
  simp only [pyLineStep] at hf
  rcases List.mem_append.mp hf with hf | hf
  · exfalso
    rcases List.mem_append.mp hf with hf | hf
    · rcases List.mem_append.mp hf with hf | hf
      · obtain ⟨_, hm⟩ := mem_ite_nil_elim hf
        rw [List.mem_singleton.mp hm] at hr
        simp [pyBroadFinding] at hr
      · obtain ⟨_, hm⟩ := mem_ite_nil_elim hf
        rw [List.mem_singleton.mp hm] at hr
        simp [pyBareFinding] at hr
    · obtain ⟨_, hm⟩ := mem_ite_nil_elim hf
      rw [List.mem_singleton.mp hm] at hr
      simp [pySilentFinding] at hr
  · obtain ⟨hasync, hm⟩ := mem_ite_nil_elim hf
    obtain ⟨pc, _, hpc⟩ := List.mem_filterMap.mp hm
    split at hpc
    · cases Option.some_inj.mp hpc
      exact ⟨hasync, rfl⟩
    · exact absurd hpc (by simp)

/-- Blocking findings of the scan loop land only on amended-inside lines. -/
theorem pyGo_blocking_inside (lines : List (List Char)) :
    ∀ rem : List (List Char), ∀ i : Nat, ∀ st : PyState,
      rem = lines.drop i → pyAsyncInv lines i st →
      ∀ f ∈ pyGo lines rem i st, f.rule_id = "PY_BLOCKING_IN_ASYNC" →
      amendedAsyncInside lines (f.line - 1) = true := by
  intro rem
  induction rem with
  | nil => intro i st _ _ f hf; simp [pyGo] at hf
  | cons line rest ih =>
    intro i st hdrop hInv f hf hr
    have hi : i < lines.length := by
      by_contra hcon
      rw [List.drop_eq_nil_iff.mpr (by omega)] at hdrop
      exact List.cons_ne_nil _ _ hdrop
    rw [List.drop_eq_getElem_cons hi] at hdrop
    have hline : line = lines[i] := (List.cons_eq_cons.mp hdrop).1
    have hrest : rest = lines.drop (i + 1) := (List.cons_eq_cons.mp hdrop).2
    have hgetd : lines.getD i [] = line := by
      rw [List.getD_eq_getElem lines [] hi, hline]
    have hsound := pyAsyncUpdate_sound lines i st line hgetd hInv
    simp only [pyGo] at hf
    rcases List.mem_append.mp hf with hf | hf
    · obtain ⟨hasync, hlineq⟩ := pyLineStep_blocking_mem lines i line st f hf hr
      rw [hlineq]
      simp only [Nat.add_sub_cancel]
      exact hsound.2 hasync
    · refine ih (i + 1) (pyLineStep lines i line st).1 hrest ?_ f hf hr
      intro hA
      rw [(pyLineStep_async_fields lines i line st).1] at hA
      obtain ⟨k, hk, hko, hki, hnoe⟩ := hsound.1 hA
      exact ⟨k, hk, hko,
        by rw [(pyLineStep_async_fields lines i line st).2]; exact hki, hnoe⟩

set_option maxHeartbeats 1000000 in
/-- C4 amended: a PY_BLOCKING_IN_ASYNC finding is emitted only for lines
inside an async region whose end line additionally must not begin with a
space character (the source's extra requirement beyond the claim's
indentation/blank/comment/async-def conditions). -/
theorem c4_amended_region (code : List Char) (f : RiskFinding)
    (hf : f ∈ analyze_python code) (hr : f.rule_id = "PY_BLOCKING_IN_ASYNC") :
    amendedAsyncInside (splitLines code) (f.line - 1) = true := by
  unfold analyze_python at hf
  exact pyGo_blocking_inside (splitLines code) (splitLines code) 0 _ rfl
    (fun h => absurd h (by decide)) f hf hr

/-- C4 witness: the amended statement at a concrete snippet and finding. -/
theorem c4_witness :
    amendedAsyncInside (splitLines (cs "async def fetch():\n    time.sleep(1)\n"))
      (pyBlockingFinding "time.sleep()" 2).line.pred = true := by
  have h := c4_amended_region (cs "async def fetch():\n    time.sleep(1)\n")
    (pyBlockingFinding "time.sleep()" 2) (by decide) rfl
  exact h

/-- Stable insertion permutes a cons. -/
theorem stableInsert_perm (le : α → α → Bool) (a : α) (l : List α) :
    (stableInsert le a l).Perm (a :: l) := by
  induction l with
  | nil => exact List.Perm.refl _
  | cons b l ih =>
    unfold stableInsert
    split
    · exact List.Perm.refl _
    · exact (List.Perm.cons b ih).trans (List.Perm.swap a b l)

/-- The stable sort is a permutation. -/
theorem pysort_perm (le : α → α → Bool) (l : List α) : (pysort le l).Perm l := by
  induction l with
  | nil => exact List.Perm.refl _
  | cons a l ih =>
    exact (stableInsert_perm le a (pysort le l)).trans (List.Perm.cons a ih)

/-- Appending a log to an existing bucket moves it to the end of the
flattened members, up to permutation. -/
theorem updateBucket_flat (pat : List Char) (log : LogEntry) :
    ∀ acc : List (List Char × List LogEntry),
      (∃ g ∈ acc, (g.1 == pat) = true) →
      ((updateBucket pat log acc).flatMap Prod.snd).Perm
        ((acc.flatMap Prod.snd) ++ [log]) := by
  intro acc
  induction acc with
  | nil =>
    intro h
    obtain ⟨g, hg, _⟩ := h
    exact absurd hg (List.not_mem_nil g)
  | cons g rest ih =>
    intro hex
    unfold updateBucket
    by_cases hg : (g.1 == pat) = true
    · rw [if_pos hg]
      simp only [List.flatMap_cons]
      rw [List.append_assoc, List.append_assoc]
      exact List.Perm.append_left g.2 List.perm_append_comm
    · rw [if_neg hg]
      simp only [List.flatMap_cons]
      have hex' : ∃ g' ∈ rest, (g'.1 == pat) = true := by
        obtain ⟨g', hg', he⟩ := hex
        rcases List.mem_cons.mp hg' with rfl | hmem
        · exact absurd he hg
        · exact ⟨g', hmem, he⟩
      rw [List.append_assoc]
      exact List.Perm.append_left g.2 (ih hex')

/-- One dictionary step appends exactly the new log to the flattened
members, up to permutation. -/
theorem insertGroup_flat (acc : List (List Char × List LogEntry)) (log : LogEntry) :
    ((insertGroup acc log).flatMap Prod.snd).Perm ((acc.flatMap Prod.snd) ++ [log]) := by
  unfold insertGroup
  by_cases hany :
      (acc.any fun g => g.1 == create_error_pattern log.message log.source) = true
  · rw [if_pos hany]
    exact updateBucket_flat _ log acc (List.any_eq_true.mp hany)
  · rw [if_neg hany]
    simp [List.flatMap_append]

/-- The whole bucket fold partitions the consumed logs. -/
theorem foldl_insertGroup_flat (logs : List LogEntry) :
    ∀ acc : List (List Char × List LogEntry),
      ((logs.foldl insertGroup acc).flatMap Prod.snd).Perm
        ((acc.flatMap Prod.snd) ++ logs) := by
  induction logs with
  | nil => intro acc; simp
  | cons log logs ih =>
    intro acc
    simp only [List.foldl_cons]
    have h1 := ih (insertGroup acc log)
    have h2 := (insertGroup_flat acc log).append_right logs
    have h3 : (acc.flatMap Prod.snd ++ [log]) ++ logs =
        acc.flatMap Prod.snd ++ log :: logs := by simp
    exact h1.trans (h3 ▸ h2)

/-- Buckets stay nonempty under an update. -/
theorem updateBucket_nonempty (pat : List Char) (log : LogEntry) :
    ∀ acc : List (List Char × List LogEntry), (∀ g ∈ acc, g.2 ≠ []) →
      ∀ g ∈ updateBucket pat log acc, g.2 ≠ [] := by
  intro acc
  induction acc with
  | nil => intro _ g hg; exact absurd hg (List.not_mem_nil g)
  | cons b rest ih =>
    intro hall g hg
    unfold updateBucket at hg
    by_cases hb : (b.1 == pat) = true
    · rw [if_pos hb] at hg
      rcases List.mem_cons.mp hg with rfl | hmem
      · simp
      · exact hall g (List.mem_cons_of_mem b hmem)
    · rw [if_neg hb] at hg
      rcases List.mem_cons.mp hg with rfl | hmem
      · exact hall g (List.mem_cons_self ..)
      · exact ih (fun x hx => hall x (List.mem_cons_of_mem b hx)) g hmem

/-- Buckets stay nonempty through the whole fold. -/
theorem foldl_insertGroup_nonempty (logs : List LogEntry) :
    ∀ acc : List (List Char × List LogEntry), (∀ g ∈ acc, g.2 ≠ []) →
      ∀ g ∈ logs.foldl insertGroup acc, g.2 ≠ [] := by
  induction logs with
  | nil => intro acc hall; exact hall
  | cons log logs ih =>
    intro acc hall
    simp only [List.foldl_cons]
    refine ih _ ?_
    intro g hg
    unfold insertGroup at hg
    by_cases hany :
        (acc.any fun x => x.1 == create_error_pattern log.message log.source) = true
    · rw [if_pos hany] at hg
      exact updateBucket_nonempty _ log acc hall g hg
    · rw [if_neg hany] at hg
      rcases List.mem_append.mp hg with hmem | hmem
      · exact hall g hmem
      · rcases List.mem_singleton.mp hmem with rfl
        simp

/-- Flattened identities of the enumerated groups are the flattened bucket
members' identities. -/
theorem enumFrom_mkGroup_flat (gs : List (List Char × List LogEntry)) :
    ∀ n : Nat,
      (((List.enumFrom n gs).map fun p => mkErrorGroup p.1 p.2).flatMap
        ErrorGroup.relatedLogIds) = (gs.flatMap Prod.snd).map (fun l => l.id) := by
  induction gs with
  | nil => intro n; rfl
  | cons g gs ih =>
    intro n
    simp only [List.enumFrom, List.map_cons, List.flatMap_cons, List.map_append, ih (n + 1)]
    rfl

/-- The flattened member identities of the produced groups are exactly the
identities of the ERROR/FATAL entries, as a permutation. -/
theorem group_errors_flat (logs : List LogEntry) :
    ((group_errors logs).flatMap ErrorGroup.relatedLogIds).Perm
      ((logs.filter isErrorLevel).map fun l => l.id) := by
  unfold group_errors
  have hsort := (pysort_perm groupOrder
    ((((logs.filter isErrorLevel).foldl insertGroup []).enum).map
      fun p => mkErrorGroup p.1 p.2)).flatMap_right ErrorGroup.relatedLogIds
  refine hsort.trans ?_
  rw [List.enum, enumFrom_mkGroup_flat _ 0]
  have hperm := foldl_insertGroup_flat (logs.filter isErrorLevel) []
  simp only [List.flatMap_nil, List.nil_append] at hperm
  exact hperm.map fun l => l.id

/-- Every produced group's count is its member-identity count and at least
one. -/
theorem group_errors_counts (logs : List LogEntry) :
    ∀ g ∈ group_errors logs, g.count = g.relatedLogIds.length ∧ 1 ≤ g.count := by
  intro g hg
  unfold group_errors at hg
  rw [(pysort_perm _ _).mem_iff] at hg
  obtain ⟨p, hp, rfl⟩ := List.mem_map.mp hg
  have hpm : p.2 ∈ (logs.filter isErrorLevel).foldl insertGroup [] :=
    List.snd_mem_of_mem_enumFrom hp
  have hne : p.2.2 ≠ [] :=
    foldl_insertGroup_nonempty (logs.filter isErrorLevel) []
      (fun x hx => absurd hx (List.not_mem_nil x)) p.2 hpm
  constructor
  · simp [mkErrorGroup]
  · have : 0 < p.2.2.length := List.length_pos.mpr hne
    simp [mkErrorGroup]
    omega

/-- C5: every member of every ErrorGroup is an ERROR or FATAL entry of the
input; the flattened member identities are exactly the identities of the
ERROR/FATAL entries with nothing dropped or double-counted; and each group's
count equals its member-identity count and is at least one. -/
theorem c5_group_invariants (logs : List LogEntry) :
    ((group_errors logs).all fun g =>
        (g.count == g.relatedLogIds.length) && decide (1 ≤ g.count)) = true ∧
    ((group_errors logs).flatMap ErrorGroup.relatedLogIds).Perm
      ((logs.filter isErrorLevel).map fun l => l.id) ∧
    ((group_errors logs).all fun g =>
        g.relatedLogIds.all fun v =>
          logs.any fun l => (l.id == v) && isErrorLevel l) = true := by
  refine ⟨?_, group_errors_flat logs, ?_⟩
  · rw [List.all_eq_true]
    intro g hg
    obtain ⟨h1, h2⟩ := group_errors_counts logs g hg
    simp [h1, h2]
    omega
  · rw [List.all_eq_true]
    intro g hg
    rw [List.all_eq_true]
    intro v hv
    have hvflat : v ∈ (group_errors logs).flatMap ErrorGroup.relatedLogIds :=
      List.mem_flatMap.mpr ⟨g, hg, hv⟩
    have hvmap := (group_errors_flat logs).mem_iff.mp hvflat
    obtain ⟨l, hl, rfl⟩ := List.mem_map.mp hvmap
    have hl2 := List.mem_filter.mp hl
    rw [List.any_eq_true]
    exact ⟨l, hl2.1, by simp [hl2.2]⟩
